import Mathlib

/-!
Shallow embedding of the granja-valencia livestock service layer.

The definitions below translate, from the TypeScript sources, the parts of
the repository that the verified claims are about:

  - the data model (src/backend/src/models, src/backend/src/interfaces):
    Lote (lot), Corral (pen) and Cerdo (pig) rows, gathered in a DB record;
  - CerdoService (src/backend/src/services/CerdoService.ts): crearCerdo,
    registrarPesaje, cambiarEstado, transferirCerdo, validarPeso,
    actualizarPesoPromedioCorral, registrarCambio, obtenerHistorial;
  - CorralService.actualizarCorral (src/backend/src/services/CorralService.ts).

Modelling conventions: JavaScript numbers used as counters are Int, weights
are Rat; Date values appear only through toISOString renderings, so dates are
passed as already rendered strings (a now parameter); sequelize row updates
by primary key are maps over the row lists; the try/catch block of each service
method is split into a Tx function (the try body, where a throw carries the
working database state at the moment it is raised) and an outer wrapper that
performs the rollback, returning the original database on any error.
The reduce-based average in actualizarPesoPromedioCorral and the regular
expression of obtenerHistorial are translated literally; the backtracking
search of the JavaScript regex engine is made explicit by enumerating, in
the engine order, the candidate splits for each capture group.
-/

/-- Life state of a pig, from the ENUM of models/Cerdo.ts. -/
inductive EstadoCerdo
  | ACTIVO
  | VENDIDO
  | MUERTO
  | ENFERMO
deriving DecidableEq

/-- State of a lot, from the ENUM of models/Lote.ts. -/
inductive EstadoLote
  | ACTIVO
  | FINALIZADO
deriving DecidableEq

/-- Pen type, from the ENUM of models/Corral.ts. -/
inductive TipoCorral
  | LECHON
  | ENGORDE
  | ENFERMERIA
deriving DecidableEq

/-- A lot row (models/Lote.ts), restricted to the fields the embedded
operations read or write. -/
structure Lote where
  id : String
  cantidad_inicial : Int
  cantidad_actual : Int
  estado : EstadoLote
deriving DecidableEq

/-- A pen row (models/Corral.ts). -/
structure Corral where
  id : String
  numero : String
  capacidad : Int
  ocupacion_actual : Int
  lote_id : String
  tipo : TipoCorral
  peso_promedio_actual : Rat
deriving DecidableEq

/-- A pig row (models/Cerdo.ts); observaciones is the free text column the
change log is appended to, with the empty string standing for NULL. -/
structure Cerdo where
  id : String
  arete : String
  lote_id : String
  corral_id : String
  peso_inicial : Rat
  peso_actual : Rat
  estado : EstadoCerdo
  ultima_fecha_pesaje : String
  observaciones : String
deriving DecidableEq

/-- The transactional store: the three row tables. -/
structure DB where
  lotes : List Lote
  corrales : List Corral
  cerdos : List Cerdo
deriving DecidableEq

/-- Lote.findByPk. -/
def findLote (db : DB) (id : String) : Option Lote :=
  db.lotes.find? (fun l => l.id == id)

/-- Corral.findByPk. -/
def findCorral (db : DB) (id : String) : Option Corral :=
  db.corrales.find? (fun c => c.id == id)

/-- Cerdo.findByPk. -/
def findCerdo (db : DB) (id : String) : Option Cerdo :=
  db.cerdos.find? (fun c => c.id == id)

/-- A sequelize update, increment or decrement with a where id clause:
apply f to every row whose id matches. -/
def updateCorralesById (cs : List Corral) (id : String) (f : Corral → Corral) : List Corral :=
  cs.map (fun c => if c.id == id then f c else c)

/-- A lot update by id. -/
def updateLotesById (ls : List Lote) (id : String) (f : Lote → Lote) : List Lote :=
  ls.map (fun l => if l.id == id then f l else l)

/-- A pig update by id. -/
def updateCerdosById (cs : List Cerdo) (id : String) (f : Cerdo → Cerdo) : List Cerdo :=
  cs.map (fun c => if c.id == id then f c else c)

/-- CerdoErrorType from CerdoService.ts. -/
inductive CerdoErrorType
  | NOT_FOUND
  | DUPLICATE_ARETE
  | INVALID_WEIGHT
  | CORRAL_FULL
  | INVALID_TRANSFER
deriving DecidableEq

/-- CerdoError from CerdoService.ts. -/
structure CerdoError where
  type : CerdoErrorType
  message : String
deriving DecidableEq

/-- The kinds of a change log record, from ICambioHistorial. -/
inductive TipoCambio
  | PESO
  | ESTADO
  | CORRAL
deriving DecidableEq

/-- The string interpolation of a TipoCambio value. -/
def TipoCambio.render : TipoCambio → String
  | .PESO => "PESO"
  | .ESTADO => "ESTADO"
  | .CORRAL => "CORRAL"

/-- The string interpolation of an EstadoCerdo value. -/
def EstadoCerdo.render : EstadoCerdo → String
  | .ACTIVO => "ACTIVO"
  | .VENDIDO => "VENDIDO"
  | .MUERTO => "MUERTO"
  | .ENFERMO => "ENFERMO"

/-- A change log record (ICambioHistorial); fecha holds the toISOString
rendering of the timestamp, the values hold their string interpolations,
none stands for an absent observaciones field. -/
structure Cambio where
  fecha : String
  tipo : TipoCambio
  valorAnterior : String
  valorNuevo : String
  observaciones : Option String
deriving DecidableEq

/-- The line registrarCambio builds by template interpolation; an empty
observaciones string is falsy in JavaScript, so it is rendered like an
absent one. -/
def encodeCambio (c : Cambio) : String :=
  c.fecha ++ " - " ++ c.tipo.render ++ ": " ++ c.valorAnterior ++ " -> " ++ c.valorNuevo ++
    (match c.observaciones with
     | some s => if s = "" then "" else " (" ++ s ++ ")"
     | none => "")

/-- How registrarCambio extends the observaciones column: the new line is
appended after a newline, except when the column is still empty (falsy). -/
def appendObservacion (old linea : String) : String :=
  if old = "" then linea else old ++ "\n" ++ linea

/-- CerdoService.registrarCambio: update the observaciones column of the pig
row with the rendered change line. -/
def registrarCambio (cerdo : Cerdo) (cambio : Cambio) : Cerdo :=
  { cerdo with observaciones := appendObservacion cerdo.observaciones (encodeCambio cambio) }

/-- The string interpolation used for weights in change lines. The exact
digits of the JavaScript number rendering are irrelevant to every claim, so
the Rat ToString rendering stands for it. -/
def pesoRender (q : Rat) : String :=
  toString q

/-- The findAll filter of actualizarPesoPromedioCorral: pigs of the pen in
state ACTIVO. -/
def cerdosActivosEnCorral (db : DB) (corralId : String) : List Cerdo :=
  db.cerdos.filter (fun c => c.corral_id == corralId && c.estado == EstadoCerdo.ACTIVO)

/-- The reduce-based arithmetic mean of the current weights of the active
pigs of the pen. -/
def promedioCorral (db : DB) (corralId : String) : Rat :=
  ((cerdosActivosEnCorral db corralId).map (fun c => c.peso_actual)).sum /
    ((cerdosActivosEnCorral db corralId).length : Rat)

/-- CerdoService.actualizarPesoPromedioCorral: when the pen holds at least
one active pig, store the mean of their current weights; otherwise the
method returns without touching the row. -/
def actualizarPesoPromedioCorral (db : DB) (corralId : String) : DB :=
  if (cerdosActivosEnCorral db corralId).length > 0 then
    let corrales1 := updateCorralesById db.corrales corralId
      (fun c => { c with peso_promedio_actual := promedioCorral db corralId })
    { db with corrales := corrales1 }
  else db

/-- CerdoService.validarPeso: reject a relative variation above 30 percent. -/
def validarPeso (pesoActual pesoNuevo : Rat) : Except CerdoError Bool :=
  let variacionMaxima : Rat := 3/10
  let diferenciaPorcentual := |pesoNuevo - pesoActual| / pesoActual
  if diferenciaPorcentual > variacionMaxima then
    .error ⟨.INVALID_WEIGHT, "Variacion de peso sospechosa. Por favor verificar."⟩
  else
    .ok true

/-- The creation payload of a pig (ICerdoBase), restricted to the fields
crearCerdo consumes; observaciones is the optional free text note column,
empty string for absent. -/
structure ICerdoBase where
  arete : String
  lote_id : String
  corral_id : String
  peso_inicial : Rat
  observaciones : String
deriving DecidableEq

/-- The try body of CerdoService.crearCerdo. An error carries the working
database state at the moment the exception is raised. The generated UUID of
the new row is passed in as newId. -/
def crearCerdoTx (db : DB) (data : ICerdoBase) (newId now : String) :
    Except (CerdoError × DB) DB :=
  match findLote db data.lote_id with
  | none => .error (⟨.NOT_FOUND, "El lote especificado no existe"⟩, db)
  | some lote =>
    match db.corrales.find? (fun c => c.id == data.corral_id && c.lote_id == data.lote_id) with
    | none => .error (⟨.NOT_FOUND, "El corral especificado no existe o no pertenece al lote"⟩, db)
    | some corral =>
      if corral.ocupacion_actual ≥ corral.capacidad then
        .error (⟨.CORRAL_FULL, "El corral ha alcanzado su capacidad maxima"⟩, db)
      else if db.cerdos.any (fun c => c.arete == data.arete) then
        .error (⟨.DUPLICATE_ARETE, "Ya existe un cerdo con este numero de arete"⟩, db)
      else
        let cerdo0 : Cerdo :=
          { id := newId, arete := data.arete, lote_id := data.lote_id,
            corral_id := data.corral_id, peso_inicial := data.peso_inicial,
            peso_actual := data.peso_inicial, estado := .ACTIVO,
            ultima_fecha_pesaje := now, observaciones := data.observaciones }
        let cerdo1 := registrarCambio cerdo0
          { fecha := now, tipo := .PESO, valorAnterior := pesoRender 0,
            valorNuevo := pesoRender data.peso_inicial,
            observaciones := some "Peso inicial al crear cerdo" }
        let db1 := { db with cerdos := db.cerdos ++ [cerdo1] }
        let corrales2 := updateCorralesById db1.corrales corral.id
          (fun c => { c with ocupacion_actual := c.ocupacion_actual + 1 })
        let db2 := { db1 with corrales := corrales2 }
        let lotes3 := updateLotesById db2.lotes lote.id
          (fun l => { l with cantidad_actual := l.cantidad_actual + 1 })
        let db3 := { db2 with lotes := lotes3 }
        .ok (actualizarPesoPromedioCorral db3 corral.id)

/-- CerdoService.crearCerdo: the try body followed by the rollback of the
catch clause, which restores the original database on any error. -/
def crearCerdo (db : DB) (data : ICerdoBase) (newId now : String) : Except CerdoError DB :=
  match crearCerdoTx db data newId now with
  | .ok db1 => .ok db1
  | .error (e, _) => .error e

/-- The try body of CerdoService.registrarPesaje. -/
def registrarPesajeTx (db : DB) (id : String) (nuevoPeso : Rat) (now : String) :
    Except (CerdoError × DB) DB :=
  match findCerdo db id with
  | none => .error (⟨.NOT_FOUND, "Cerdo no encontrado"⟩, db)
  | some cerdo =>
    if nuevoPeso ≤ 0 then
      .error (⟨.INVALID_WEIGHT, "El peso debe ser mayor que 0"⟩, db)
    else
      match (if cerdo.peso_actual > 0 then validarPeso cerdo.peso_actual nuevoPeso else .ok true) with
      | .error e => .error (e, db)
      | .ok _ =>
        let pesoAnterior := cerdo.peso_actual
        let cerdo1 := { cerdo with peso_actual := nuevoPeso, ultima_fecha_pesaje := now }
        let cerdo2 := registrarCambio cerdo1
          { fecha := now, tipo := .PESO, valorAnterior := pesoRender pesoAnterior,
            valorNuevo := pesoRender nuevoPeso, observaciones := none }
        let db1 := { db with cerdos := updateCerdosById db.cerdos id (fun _ => cerdo2) }
        .ok (actualizarPesoPromedioCorral db1 cerdo.corral_id)

/-- CerdoService.registrarPesaje with rollback. -/
def registrarPesaje (db : DB) (id : String) (nuevoPeso : Rat) (now : String) :
    Except CerdoError DB :=
  match registrarPesajeTx db id nuevoPeso now with
  | .ok db1 => .ok db1
  | .error (e, _) => .error e

/-- The try body of CerdoService.cambiarEstado. The pen occupancy and the
lot live count are decremented exactly when the requested state is MUERTO
or VENDIDO and the current state is ACTIVO; no transition is rejected. -/
def cambiarEstadoTx (db : DB) (id : String) (nuevoEstado : EstadoCerdo)
    (observacion : Option String) (now : String) : Except (CerdoError × DB) DB :=
  match findCerdo db id with
  | none => .error (⟨.NOT_FOUND, "Cerdo no encontrado"⟩, db)
  | some cerdo =>
    let estadoAnterior := cerdo.estado
    let db1 :=
      if (nuevoEstado == EstadoCerdo.MUERTO || nuevoEstado == EstadoCerdo.VENDIDO) &&
          cerdo.estado == EstadoCerdo.ACTIVO then
        let corralesA := updateCorralesById db.corrales cerdo.corral_id
          (fun c => { c with ocupacion_actual := c.ocupacion_actual - 1 })
        let dbA := { db with corrales := corralesA }
        let lotesA := updateLotesById dbA.lotes cerdo.lote_id
          (fun l => { l with cantidad_actual := l.cantidad_actual - 1 })
        { dbA with lotes := lotesA }
      else db
    let cerdo1 := registrarCambio cerdo
      { fecha := now, tipo := .ESTADO, valorAnterior := estadoAnterior.render,
        valorNuevo := nuevoEstado.render, observaciones := observacion }
    let cerdo2 := { cerdo1 with estado := nuevoEstado }
    .ok { db1 with cerdos := updateCerdosById db1.cerdos id (fun _ => cerdo2) }

/-- CerdoService.cambiarEstado with rollback. -/
def cambiarEstado (db : DB) (id : String) (nuevoEstado : EstadoCerdo)
    (observacion : Option String) (now : String) : Except CerdoError DB :=
  match cambiarEstadoTx db id nuevoEstado observacion now with
  | .ok db1 => .ok db1
  | .error (e, _) => .error e

/-- The try body of CerdoService.transferirCerdo. When the origin pen row is
missing, neither occupancy is touched, mirroring the if on corralOrigen. -/
def transferirCerdoTx (db : DB) (idCerdo idNuevoCorral now : String) :
    Except (CerdoError × DB) DB :=
  match findCerdo db idCerdo with
  | none => .error (⟨.NOT_FOUND, "Cerdo no encontrado"⟩, db)
  | some cerdo =>
    match findCorral db idNuevoCorral with
    | none => .error (⟨.NOT_FOUND, "Corral destino no encontrado"⟩, db)
    | some corralDestino =>
      if corralDestino.ocupacion_actual ≥ corralDestino.capacidad then
        .error (⟨.CORRAL_FULL, "Corral destino sin capacidad disponible"⟩, db)
      else
        let corralAnterior := cerdo.corral_id
        let db1 :=
          match findCorral db cerdo.corral_id with
          | some _ =>
            let corralesA := updateCorralesById db.corrales cerdo.corral_id
              (fun c => { c with ocupacion_actual := c.ocupacion_actual - 1 })
            let dbA := { db with corrales := corralesA }
            let corralesB := updateCorralesById dbA.corrales idNuevoCorral
              (fun c => { c with ocupacion_actual := c.ocupacion_actual + 1 })
            { dbA with corrales := corralesB }
          | none => db
        let cerdo1 := registrarCambio cerdo
          { fecha := now, tipo := .CORRAL, valorAnterior := corralAnterior,
            valorNuevo := idNuevoCorral, observaciones := none }
        let cerdo2 := { cerdo1 with corral_id := idNuevoCorral }
        let db2 := { db1 with cerdos := updateCerdosById db1.cerdos idCerdo (fun _ => cerdo2) }
        let db3 := actualizarPesoPromedioCorral db2 corralAnterior
        .ok (actualizarPesoPromedioCorral db3 idNuevoCorral)

/-- CerdoService.transferirCerdo with rollback. -/
def transferirCerdo (db : DB) (idCerdo idNuevoCorral now : String) : Except CerdoError DB :=
  match transferirCerdoTx db idCerdo idNuevoCorral now with
  | .ok db1 => .ok db1
  | .error (e, _) => .error e

/-- The JavaScript regex whitespace class, restricted to the characters that
can occur here. -/
def isJsWs (c : Char) : Bool :=
  c == ' ' || c == '\t' || c == '\n' || c == '\r' || c == Char.ofNat 11 || c == Char.ofNat 12

/-- All decompositions of a character list around one occurrence of the
separator, ordered by increasing length of the left part. This enumerates
the candidate splits a backtracking regex engine tries for a greedy or lazy
group followed by a literal separator. -/
def splitsAt (sep : List Char) : List Char → List (List Char × List Char)
  | [] => if sep.isEmpty then [([], [])] else []
  | c :: cs =>
    (if sep.isPrefixOf (c :: cs) then [([], (c :: cs).drop sep.length)] else []) ++
      (splitsAt sep cs).map (fun p => (c :: p.1, p.2))

/-- First produced value of f over the list, in order. -/
def firstSome {α β : Type} (f : α → Option β) : List α → Option β
  | [] => none
  | a :: more =>
    match f a with
    | some b => some b
    | none => firstSome f more

/-- The alternation (PESO|ESTADO|CORRAL) followed by the literal colon and
space of the obtenerHistorial regex. -/
def matchTipo (b : List Char) : Option (TipoCambio × List Char) :=
  if ("PESO: ".data).isPrefixOf b then some (.PESO, b.drop 6)
  else if ("ESTADO: ".data).isPrefixOf b then some (.ESTADO, b.drop 8)
  else if ("CORRAL: ".data).isPrefixOf b then some (.CORRAL, b.drop 8)
  else none

/-- The optional trailing note group of the regex: greedy whitespace, an
opening parenthesis, a greedy group, a closing parenthesis at the end. -/
def matchNoteGroup (r : List Char) : Option (List Char) :=
  match r.dropWhile isJsWs with
  | '(' :: rest =>
    match rest.getLast? with
    | some ')' => some rest.dropLast
    | _ => none
  | _ => none

/-- The lazy fourth group of the regex: nonempty prefixes of the remaining
input, shortest first; for each candidate first try the optional note group
on the rest, then accept only at the end of the line. -/
def matchG4Aux (acc : List Char) : List Char → Option (List Char × Option (List Char))
  | [] => none
  | c :: rest =>
    match matchNoteGroup rest with
    | some m => some (acc ++ [c], some m)
    | none =>
      if rest.isEmpty then some (acc ++ [c], none)
      else matchG4Aux (acc ++ [c]) rest

/-- The regex of obtenerHistorial applied to one line, with the backtracking
order of the engine made explicit: the first and third groups are greedy,
so their candidate splits are tried longest first; the fourth is lazy. -/
def matchLinea (line : List Char) : Option Cambio :=
  firstSome (fun p1 =>
    if p1.1.isEmpty then none
    else
      match matchTipo p1.2 with
      | none => none
      | some tc =>
        firstSome (fun p2 =>
          if p2.1.isEmpty then none
          else
            match matchG4Aux [] p2.2 with
            | some pn =>
              some { fecha := String.mk p1.1, tipo := tc.1,
                     valorAnterior := String.mk p2.1, valorNuevo := String.mk pn.1,
                     observaciones := pn.2.map String.mk }
            | none => none)
          ((splitsAt (" -> ".data) tc.2).reverse))
    ((splitsAt (" - ".data) line).reverse)

/-- The split on the newline character used by obtenerHistorial. -/
def splitNl : List Char → List (List Char)
  | [] => [[]]
  | c :: cs =>
    if c == '\n' then [] :: splitNl cs
    else
      match splitNl cs with
      | l :: ls => (c :: l) :: ls
      | [] => [[c]]

/-- The parsing core of obtenerHistorial on a nonempty observaciones
column: split into lines and keep the lines the regex accepts. -/
def parseObservaciones (s : String) : List Cambio :=
  (splitNl s.data).filterMap matchLinea

/-- CerdoService.obtenerHistorial: look the pig up, then parse its
observaciones column; a falsy column yields the empty history. -/
def obtenerHistorial (db : DB) (id : String) : Except CerdoError (List Cambio) :=
  match findCerdo db id with
  | none => .error ⟨.NOT_FOUND, "Cerdo no encontrado"⟩
  | some cerdo =>
    if cerdo.observaciones = "" then .ok []
    else .ok (parseObservaciones cerdo.observaciones)

/-- The Partial ICorralBase payload of CorralService.actualizarCorral;
none stands for an absent field. -/
structure CorralUpdateData where
  numero : Option String := none
  capacidad : Option Int := none
  ocupacion_actual : Option Int := none
  lote_id : Option String := none
  tipo : Option TipoCorral := none
  peso_promedio_actual : Option Rat := none
deriving DecidableEq

/-- The corral.update(data) call: every provided field overwrites the row. -/
def applyCorralUpdate (c : Corral) (d : CorralUpdateData) : Corral :=
  { c with
    numero := d.numero.getD c.numero,
    capacidad := d.capacidad.getD c.capacidad,
    ocupacion_actual := d.ocupacion_actual.getD c.ocupacion_actual,
    lote_id := d.lote_id.getD c.lote_id,
    tipo := d.tipo.getD c.tipo,
    peso_promedio_actual := d.peso_promedio_actual.getD c.peso_promedio_actual }

/-- The lot change validation of actualizarCorral; the empty string is
falsy in JavaScript, so it skips the block like an absent field. -/
def checkLoteChange (db : DB) (id : String) (d : CorralUpdateData) : Except String Unit :=
  match d.lote_id with
  | some lid =>
    if lid = "" then .ok ()
    else if (findLote db lid).isNone then .error "El lote especificado no existe"
    else if 0 < (db.cerdos.filter (fun c => c.corral_id == id)).length then
      .error "No se puede cambiar el lote de un corral con cerdos"
    else .ok ()
  | none => .ok ()

/-- The pen number validation of actualizarCorral. -/
def checkNumeroChange (db : DB) (id : String) (d : CorralUpdateData) : Except String Unit :=
  match d.numero with
  | some n =>
    if n = "" then .ok ()
    else if db.corrales.any (fun c => c.numero == n && c.id != id) then
      .error "Ya existe un corral con este numero"
    else .ok ()
  | none => .ok ()

/-- The capacity validation of actualizarCorral: a provided capacity must be
positive and at least the current occupancy of the row. -/
def checkCapacidadChange (corral : Corral) (d : CorralUpdateData) : Except String Unit :=
  match d.capacidad with
  | some cap =>
    if cap ≤ 0 then .error "La capacidad del corral debe ser mayor que 0"
    else if cap < corral.ocupacion_actual then
      .error "La nueva capacidad no puede ser menor que la ocupacion actual"
    else .ok ()
  | none => .ok ()

/-- CorralService.actualizarCorral: a missing row returns null; the three
validations run in source order; then the update is applied to the row. -/
def actualizarCorral (db : DB) (id : String) (data : CorralUpdateData) :
    Except String (Option DB) :=
  match findCorral db id with
  | none => .ok none
  | some corral =>
    match checkLoteChange db id data with
    | .error e => .error e
    | .ok _ =>
      match checkNumeroChange db id data with
      | .error e => .error e
      | .ok _ =>
        match checkCapacidadChange corral data with
        | .error e => .error e
        | .ok _ =>
          let corrales1 := updateCorralesById db.corrales id (fun c => applyCorralUpdate c data)
          .ok (some { db with corrales := corrales1 })

deriving instance DecidableEq for Except

/-- Occupancy of a pen, when the row exists. -/
def ocupacionDe (db : DB) (cid : String) : Option Int :=
  (findCorral db cid).map (fun c => c.ocupacion_actual)

/-- Live count of a lot, when the row exists. -/
def cantidadDe (db : DB) (lid : String) : Option Int :=
  (findLote db lid).map (fun l => l.cantidad_actual)

/-- Stored average weight of a pen, when the row exists. -/
def pesoPromedioDe (db : DB) (cid : String) : Option Rat :=
  (findCorral db cid).map (fun c => c.peso_promedio_actual)

/-- A nonempty field whose characters are outside the regex whitespace class
and outside the given list. -/
def campoSinChars (s : String) (avoid : List Char) : Prop :=
  s ≠ "" ∧ ∀ c ∈ s.data, isJsWs c = false ∧ c ∉ avoid

/-- Conditions on a change record under which its encoded line survives the
text round trip of the change log: whitespace-free fields, no hyphen in the
values, no opening parenthesis in the new value, and a note, when present,
that is nonempty and whitespace-free. -/
def cambioSeguro (cb : Cambio) : Prop :=
  campoSinChars cb.fecha [] ∧
  campoSinChars cb.valorAnterior ['-'] ∧
  campoSinChars cb.valorNuevo ['-', '('] ∧
  (match cb.observaciones with
   | none => True
   | some s => campoSinChars s [])

/-- Decidability of the safe field condition. -/
instance (s : String) (av : List Char) : Decidable (campoSinChars s av) := by
  unfold campoSinChars
  infer_instance

/-- Decidability of the safe record condition. -/
instance (cb : Cambio) : Decidable (cambioSeguro cb) := by
  unfold cambioSeguro
  cases cb.observaciones <;> exact inferInstance

/-- Join of encoded lines with newline separators, the shape the
observaciones column takes after successive registrarCambio calls on a
column that started empty. -/
def lineasJoin : List String → String
  | [] => ""
  | [l] => l
  | l :: ls => l ++ "\n" ++ lineasJoin ls

/-- Sample lot in state ACTIVO. -/
def loteL1 : Lote := ⟨"l1", 10, 10, .ACTIVO⟩

/-- Sample lot in state FINALIZADO. -/
def loteL2 : Lote := ⟨"l2", 5, 5, .FINALIZADO⟩

/-- Sample pen of lot l1 with one occupant. -/
def corralA : Corral := ⟨"cA", "A-01", 10, 1, "l1", .ENGORDE, 20⟩

/-- Sample empty pen of lot l1. -/
def corralB : Corral := ⟨"cB", "B-01", 10, 0, "l1", .ENGORDE, 0⟩

/-- Sample empty pen of the other lot l2. -/
def corralC : Corral := ⟨"cC", "C-01", 10, 0, "l2", .ENGORDE, 0⟩

/-- Sample pig in terminal state MUERTO, located in corralA. -/
def cerdoMuerto : Cerdo := ⟨"p1", "T-000001", "l1", "cA", 20, 20, .MUERTO, "t0", ""⟩

/-- Sample pig in state ACTIVO, located in corralA. -/
def cerdoActivo : Cerdo := ⟨"p2", "T-000002", "l1", "cA", 20, 20, .ACTIVO, "t0", ""⟩

/-- Sample pig in state ENFERMO, located in corralA. -/
def cerdoEnfermo : Cerdo := ⟨"p3", "T-000003", "l1", "cA", 20, 20, .ENFERMO, "t0", ""⟩

/-- A concrete safe weight change record. -/
def cambioPeso1 : Cambio := ⟨"2024-01-01T00:00:00.000Z", .PESO, "20", "25.5", none⟩

/-- A concrete safe state change record carrying a note. -/
def cambioEstado1 : Cambio :=
  ⟨"2024-01-02T00:00:00.000Z", .ESTADO, "ACTIVO", "ENFERMO", some "revision"⟩

/-- A state change record whose note spans two lines: the newline inside the
note is the same character the history reader splits the column on. -/
def cambioNotaSalto : Cambio := ⟨"f1", .ESTADO, "ACTIVO", "ENFERMO", some "linea1\nlinea2"⟩

/-- A row update by id does not disturb the lookup of the updated id: the
first matching row is found, updated, provided the update keeps its key. -/
theorem find?_map_update {α : Type} (key : α → String) (upd : α → α) (tid : String)
    (xs : List α) (x : α) (hfind : xs.find? (fun y => key y == tid) = some x)
    (hkey : key (upd x) = key x) :
    (xs.map (fun y => if key y == tid then upd y else y)).find? (fun y => key y == tid) =
      some (upd x) := by
  induction xs with
  | nil => simp at hfind
  | cons a as ih =>
    by_cases h : (key a == tid) = true
    · simp only [List.find?_cons, h] at hfind
      have hax : a = x := by injection hfind
      subst hax
      have hp : (key (upd a) == tid) = true := by rw [hkey]; exact h
      rw [List.map_cons, if_pos h]
      simp only [List.find?_cons, hp]
    · have h1 : (key a == tid) = false := by simpa using h
      simp only [List.find?_cons, h1] at hfind
      simp only [List.map_cons, h1, Bool.false_eq_true, if_false, List.find?_cons]
      exact ih hfind

/-- A key-preserving row update by one id commutes with a lookup by any id. -/
theorem find?_map_update_all {α : Type} (key : α → String) (upd : α → α) (tid cid : String)
    (xs : List α) (hkey : ∀ y, key (upd y) = key y) :
    (xs.map (fun y => if key y == tid then upd y else y)).find? (fun y => key y == cid) =
      (xs.find? (fun y => key y == cid)).map (fun y => if key y == tid then upd y else y) := by
  induction xs with
  | nil => simp
  | cons a as ih =>
    have hkeep : key (if key a == tid then upd a else a) = key a := by
      by_cases ht : (key a == tid) = true
      · rw [if_pos ht, hkey]
      · rw [if_neg ht]
    by_cases h : (key a == cid) = true
    · have hp : (key (if key a == tid then upd a else a) == cid) = true := by
        rw [hkeep]; exact h
      simp only [List.map_cons, List.find?_cons, hp, h]
      rfl
    · have h1 : (key a == cid) = false := by simpa using h
      have hp : (key (if key a == tid then upd a else a) == cid) = false := by
        rw [hkeep]; exact h1
      simp only [List.map_cons, List.find?_cons, hp, h1, Bool.false_eq_true, if_false]
      exact ih

/-- The average update touches only the pen table. -/
theorem actualizarPesoPromedio_cerdos (db : DB) (cid : String) :
    (actualizarPesoPromedioCorral db cid).cerdos = db.cerdos := by
  unfold actualizarPesoPromedioCorral
  split <;> rfl

/-- The average update touches only the pen table, lot part. -/
theorem actualizarPesoPromedio_lotes (db : DB) (cid : String) :
    (actualizarPesoPromedioCorral db cid).lotes = db.lotes := by
  unfold actualizarPesoPromedioCorral
  split <;> rfl

/-- C2 counterexample: the claim says every transition outside the listed
table fails with an InvalidTransition error; on the code, cambiarEstado
accepts the pair (MUERTO, ACTIVO) at this concrete state. -/
theorem cambiarEstado_terminal_acepta :
    cerdoMuerto.estado = EstadoCerdo.MUERTO ∧
    (cambiarEstado ⟨[loteL1], [corralA], [cerdoMuerto]⟩ "p1" EstadoCerdo.ACTIVO none
      "t1").isOk = true := by
  with_unfolding_all decide

/-- C2 amended: cambiarEstado validates no transition at all; it succeeds
for every requested state exactly when the pig exists. -/
theorem cambiarEstado_sinValidacion (db : DB) (id : String) (ns : EstadoCerdo)
    (obs : Option String) (now : String) :
    (cambiarEstado db id ns obs now).isOk = (findCerdo db id).isSome := by
  unfold cambiarEstado cambiarEstadoTx
  cases h : findCerdo db id <;> simp [h, Except.isOk, Except.toBool]

/-- C1 counterexample: the claim says RecordWeighing on a SOLD or DEAD pig
fails with InvalidTransition; on the code, a weighing of a MUERTO pig at
this concrete state succeeds. -/
theorem pesajeEnCerdoMuerto :
    cerdoMuerto.estado = EstadoCerdo.MUERTO ∧
    (registrarPesaje ⟨[loteL1], [corralA], [cerdoMuerto]⟩ "p1" 22 "t1").isOk = true := by
  with_unfolding_all decide

/-- C1 amended: none of the three operations inspects the life state of the
pig: on a VENDIDO or MUERTO pig, each succeeds whenever its other checks
pass (a positive weight within the variation bound, any requested state,
a target pen that exists with free capacity). -/
theorem operacionesSinChequeoTerminal (db : DB) (id : String) (cerdo : Cerdo)
    (hfind : findCerdo db id = some cerdo)
    (hterm : cerdo.estado = EstadoCerdo.VENDIDO ∨ cerdo.estado = EstadoCerdo.MUERTO) :
    (∀ w now, 0 < w → 0 < cerdo.peso_actual →
      |w - cerdo.peso_actual| / cerdo.peso_actual ≤ 3/10 →
      (registrarPesaje db id w now).isOk = true) ∧
    (∀ ns obs now, (cambiarEstado db id ns obs now).isOk = true) ∧
    (∀ pid now corral, findCorral db pid = some corral →
      corral.ocupacion_actual < corral.capacidad →
      (transferirCerdo db id pid now).isOk = true) := by
  refine ⟨?_, ?_, ?_⟩
  · intro w now hw hpw hvar
    simp only [registrarPesaje, registrarPesajeTx, hfind]
    rw [if_neg (not_le.mpr hw), if_pos hpw]
    simp only [validarPeso]
    rw [if_neg (not_lt.mpr hvar)]
    rfl
  · intro ns obs now
    simp only [cambiarEstado, cambiarEstadoTx, hfind]
    rfl
  · intro pid now corral hfp hcap
    simp only [transferirCerdo, transferirCerdoTx, hfind, hfp]
    rw [if_neg (not_le.mpr hcap)]
    rfl

/-- Witness for the C1 amended theorem at a concrete terminal pig. -/
theorem operacionesSinChequeoTerminal_witness :
    (registrarPesaje ⟨[loteL1, loteL2], [corralA, corralC], [cerdoMuerto]⟩ "p1" 22
      "t1").isOk = true ∧
    (cambiarEstado ⟨[loteL1, loteL2], [corralA, corralC], [cerdoMuerto]⟩ "p1"
      EstadoCerdo.ACTIVO none "t1").isOk = true ∧
    (transferirCerdo ⟨[loteL1, loteL2], [corralA, corralC], [cerdoMuerto]⟩ "p1" "cC"
      "t1").isOk = true := by
  have h := operacionesSinChequeoTerminal ⟨[loteL1, loteL2], [corralA, corralC], [cerdoMuerto]⟩
    "p1" cerdoMuerto (by with_unfolding_all decide) (by with_unfolding_all decide)
  exact ⟨h.1 22 "t1" (by with_unfolding_all decide) (by with_unfolding_all decide) (by with_unfolding_all decide),
    h.2.1 EstadoCerdo.ACTIVO none "t1",
    h.2.2 "cC" "t1" corralC (by with_unfolding_all decide) (by with_unfolding_all decide)⟩

/-- C7: in the try body of each of the four mutating operations, every
check that can raise an error runs before the first write, so the working
state an error carries is the input state; together with the rollback of
the catch clause, a failed operation leaves the store untouched. -/
theorem fallosAntesDeEscrituras (db : DB) (data : ICerdoBase) (newId now id pid : String)
    (w : Rat) (ns : EstadoCerdo) (obs : Option String) :
    (∀ e d, crearCerdoTx db data newId now = .error (e, d) → d = db) ∧
    (∀ e d, registrarPesajeTx db id w now = .error (e, d) → d = db) ∧
    (∀ e d, cambiarEstadoTx db id ns obs now = .error (e, d) → d = db) ∧
    (∀ e d, transferirCerdoTx db id pid now = .error (e, d) → d = db) := by
  refine ⟨?_, ?_, ?_, ?_⟩
  · intro e d h
    unfold crearCerdoTx at h
    repeat' split at h
    all_goals simp_all
  · intro e d h
    unfold registrarPesajeTx validarPeso at h
    repeat' split at h
    all_goals simp_all
  · intro e d h
    unfold cambiarEstadoTx at h
    repeat' split at h
    all_goals simp_all
  · intro e d h
    unfold transferirCerdoTx at h
    repeat' split at h
    all_goals simp_all

/-- Witness for the C7 theorem at a concrete failing call. -/
theorem fallosAntesDeEscrituras_witness :
    registrarPesajeTx ⟨[], [], []⟩ "p" 5 "t" =
      .error (⟨CerdoErrorType.NOT_FOUND, "Cerdo no encontrado"⟩, ⟨[], [], []⟩) ∧
    (⟨[], [], []⟩ : DB) = ⟨[], [], []⟩ := by
  constructor
  · with_unfolding_all decide
  · exact (fallosAntesDeEscrituras ⟨[], [], []⟩ ⟨"a", "l", "c", 1, ""⟩ "n" "t" "p" "q" 5
      EstadoCerdo.ACTIVO none).2.1 ⟨CerdoErrorType.NOT_FOUND, "Cerdo no encontrado"⟩
      ⟨[], [], []⟩ (by with_unfolding_all decide)

/-- C3 counterexample: the claim says a successful change of a SICK pig to
SOLD decrements pen occupancy and lot live count; on the code, selling the
ENFERMO pig of this concrete state leaves the occupancy at 1 and the live
count at 10. -/
theorem cambiarEstado_enfermo_noDecrementa :
    cerdoEnfermo.estado = EstadoCerdo.ENFERMO ∧
    (cambiarEstado ⟨[loteL1], [corralA], [cerdoEnfermo]⟩ "p3" EstadoCerdo.VENDIDO none
        "t1").toOption.map (fun db1 => (ocupacionDe db1 "cA", cantidadDe db1 "l1")) =
      some (some 1, some 10) := by
  with_unfolding_all decide

/-- C3 amended: a committed cambiarEstado into VENDIDO or MUERTO decrements
the pen occupancy and the lot live count by one exactly when the current
state is ACTIVO; every other current state — ENFERMO, but also the terminal
VENDIDO and MUERTO of a repeated call — produces no decrement at all. -/
theorem cambiarEstado_decrementaSoloActivo (db : DB) (id : String) (cerdo : Cerdo)
    (ns : EstadoCerdo) (obs : Option String) (now : String) (db1 : DB)
    (hfind : findCerdo db id = some cerdo)
    (hns : ns = EstadoCerdo.VENDIDO ∨ ns = EstadoCerdo.MUERTO)
    (hok : cambiarEstado db id ns obs now = .ok db1) :
    (cerdo.estado = EstadoCerdo.ACTIVO →
      ocupacionDe db1 cerdo.corral_id =
        (ocupacionDe db cerdo.corral_id).map (fun n => n - 1) ∧
      cantidadDe db1 cerdo.lote_id = (cantidadDe db cerdo.lote_id).map (fun n => n - 1)) ∧
    (cerdo.estado ≠ EstadoCerdo.ACTIVO →
      ocupacionDe db1 cerdo.corral_id = ocupacionDe db cerdo.corral_id ∧
      cantidadDe db1 cerdo.lote_id = cantidadDe db cerdo.lote_id) := by
  simp only [cambiarEstado, cambiarEstadoTx, hfind] at hok
  have hdb1 : db1 = { (if ((ns == EstadoCerdo.MUERTO || ns == EstadoCerdo.VENDIDO) &&
        cerdo.estado == EstadoCerdo.ACTIVO) = true then
      { db with
        corrales := updateCorralesById db.corrales cerdo.corral_id
          (fun c => { c with ocupacion_actual := c.ocupacion_actual - 1 }),
        lotes := updateLotesById db.lotes cerdo.lote_id
          (fun l => { l with cantidad_actual := l.cantidad_actual - 1 }) }
    else db) with
      cerdos := updateCerdosById (if ((ns == EstadoCerdo.MUERTO || ns == EstadoCerdo.VENDIDO) &&
            cerdo.estado == EstadoCerdo.ACTIVO) = true then
          { db with
            corrales := updateCorralesById db.corrales cerdo.corral_id
              (fun c => { c with ocupacion_actual := c.ocupacion_actual - 1 }),
            lotes := updateLotesById db.lotes cerdo.lote_id
              (fun l => { l with cantidad_actual := l.cantidad_actual - 1 }) }
        else db).cerdos id
        (fun _ => { registrarCambio cerdo
            { fecha := now, tipo := TipoCambio.ESTADO, valorAnterior := cerdo.estado.render,
              valorNuevo := ns.render, observaciones := obs } with estado := ns }) } := by
    exact (Except.ok.inj hok).symm
  constructor
  · intro hact
    have hcond : ((ns == EstadoCerdo.MUERTO || ns == EstadoCerdo.VENDIDO) &&
        cerdo.estado == EstadoCerdo.ACTIVO) = true := by
      rcases hns with h | h <;> subst h <;> simp [hact]
    rw [hdb1]
    simp only [hcond, if_true]
    constructor
    · show ((updateCorralesById db.corrales cerdo.corral_id
          (fun c => { c with ocupacion_actual := c.ocupacion_actual - 1 })).find?
            (fun c => c.id == cerdo.corral_id)).map (fun c => c.ocupacion_actual) =
        ((db.corrales.find? (fun c => c.id == cerdo.corral_id)).map
          (fun c => c.ocupacion_actual)).map (fun n => n - 1)
      rw [updateCorralesById,
        find?_map_update_all (fun c => c.id)
          (fun c => { c with ocupacion_actual := c.ocupacion_actual - 1 })
          cerdo.corral_id cerdo.corral_id db.corrales (fun y => rfl)]
      cases hfc : db.corrales.find? (fun c => c.id == cerdo.corral_id) with
      | none => rfl
      | some c =>
        have hc0 := List.find?_some hfc
        have hc : c.id = cerdo.corral_id := by simpa using hc0
        simp [hc]
    · show ((updateLotesById db.lotes cerdo.lote_id
          (fun l => { l with cantidad_actual := l.cantidad_actual - 1 })).find?
            (fun l => l.id == cerdo.lote_id)).map (fun l => l.cantidad_actual) =
        ((db.lotes.find? (fun l => l.id == cerdo.lote_id)).map
          (fun l => l.cantidad_actual)).map (fun n => n - 1)
      rw [updateLotesById,
        find?_map_update_all (fun l => l.id)
          (fun l => { l with cantidad_actual := l.cantidad_actual - 1 })
          cerdo.lote_id cerdo.lote_id db.lotes (fun y => rfl)]
      cases hfl : db.lotes.find? (fun l => l.id == cerdo.lote_id) with
      | none => rfl
      | some l =>
        have hl0 := List.find?_some hfl
        have hl : l.id = cerdo.lote_id := by simpa using hl0
        simp [hl]
  · intro hne
    have hne2 : (cerdo.estado == EstadoCerdo.ACTIVO) = false := beq_eq_false_iff_ne.mpr hne
    have hcond : ((ns == EstadoCerdo.MUERTO || ns == EstadoCerdo.VENDIDO) &&
        cerdo.estado == EstadoCerdo.ACTIVO) = false := by
      simp [hne2]
    rw [hdb1]
    simp only [hcond, Bool.false_eq_true, if_false]
    exact ⟨rfl, rfl⟩

/-- Witness for the C3 amended theorem, on a concrete ACTIVO pig sold. -/
theorem cambiarEstado_decrementaSoloActivo_witness :
    ocupacionDe ⟨[loteL1], [corralA], [cerdoActivo]⟩ "cA" = some 1 ∧
    ∃ db1, cambiarEstado ⟨[loteL1], [corralA], [cerdoActivo]⟩ "p2" EstadoCerdo.VENDIDO none
        "t1" = .ok db1 ∧
      ocupacionDe db1 "cA" = (ocupacionDe ⟨[loteL1], [corralA], [cerdoActivo]⟩ "cA").map
        (fun n => n - 1) ∧
      cantidadDe db1 "l1" = (cantidadDe ⟨[loteL1], [corralA], [cerdoActivo]⟩ "l1").map
        (fun n => n - 1) := by
  have hisok : (cambiarEstado ⟨[loteL1], [corralA], [cerdoActivo]⟩ "p2" EstadoCerdo.VENDIDO
      none "t1").isOk = true := by
    with_unfolding_all decide
  obtain ⟨db1, h1⟩ : ∃ d, cambiarEstado ⟨[loteL1], [corralA], [cerdoActivo]⟩ "p2"
      EstadoCerdo.VENDIDO none "t1" = .ok d := by
    cases h : cambiarEstado ⟨[loteL1], [corralA], [cerdoActivo]⟩ "p2" EstadoCerdo.VENDIDO
        none "t1" with
    | ok d => exact ⟨d, rfl⟩
    | error e =>
      rw [h] at hisok
      exact absurd hisok (by simp [Except.isOk, Except.toBool])
  refine ⟨by with_unfolding_all decide, db1, h1, ?_⟩
  have h2 := cambiarEstado_decrementaSoloActivo ⟨[loteL1], [corralA], [cerdoActivo]⟩ "p2"
    cerdoActivo EstadoCerdo.VENDIDO none "t1" db1 (by with_unfolding_all decide)
    (Or.inl rfl) h1
  exact h2.1 rfl

/-- C4 counterexample: the claim says a transfer into a pen of a different
lot fails and changes nothing; on the code, the transfer of this pig of lot
l1 into the pen cC of lot l2 succeeds. -/
theorem transferirCerdo_otroLote_acepta :
    corralC.lote_id ≠ cerdoActivo.lote_id ∧
    (transferirCerdo ⟨[loteL1, loteL2], [corralA, corralC], [cerdoActivo]⟩ "p2" "cC"
      "t1").isOk = true := by
  with_unfolding_all decide

/-- C4 amended: transferirCerdo never compares the lot of the target pen
with the lot of the pig: whenever the pig and the target pen exist and the
pen has free capacity, the transfer commits and the pig ends located in the
target pen, even when that pen belongs to a different lot. -/
theorem transferirCerdo_ignoraLote (db : DB) (idC pid now : String) (cerdo : Cerdo)
    (corral : Corral)
    (hfc : findCerdo db idC = some cerdo)
    (hfp : findCorral db pid = some corral)
    (hcap : corral.ocupacion_actual < corral.capacidad)
    (hlot : corral.lote_id ≠ cerdo.lote_id) :
    ∃ db1, transferirCerdo db idC pid now = .ok db1 ∧
      (findCerdo db1 idC).map (fun c => c.corral_id) = some pid := by
  have hfc2 : db.cerdos.find? (fun c => c.id == idC) = some cerdo := hfc
  simp only [transferirCerdo, transferirCerdoTx, hfc, hfp]
  rw [if_neg (not_le.mpr hcap)]
  refine ⟨_, rfl, ?_⟩
  simp only [findCerdo, actualizarPesoPromedio_cerdos]
  cases hfo : findCorral db cerdo.corral_id with
  | none =>
    simp only [hfo]
    rw [show (updateCerdosById db.cerdos idC (fun _ =>
        { registrarCambio cerdo
            { fecha := now, tipo := TipoCambio.CORRAL, valorAnterior := cerdo.corral_id,
              valorNuevo := pid, observaciones := none } with corral_id := pid })) =
        db.cerdos.map (fun c => if c.id == idC then
          { registrarCambio cerdo
              { fecha := now, tipo := TipoCambio.CORRAL, valorAnterior := cerdo.corral_id,
                valorNuevo := pid, observaciones := none } with corral_id := pid } else c)
      from rfl]
    rw [find?_map_update (fun c => c.id) (fun _ =>
        { registrarCambio cerdo
            { fecha := now, tipo := TipoCambio.CORRAL, valorAnterior := cerdo.corral_id,
              valorNuevo := pid, observaciones := none } with corral_id := pid })
      idC db.cerdos cerdo hfc2 rfl]
    rfl
  | some co =>
    simp only [hfo]
    rw [show (updateCerdosById db.cerdos idC (fun _ =>
        { registrarCambio cerdo
            { fecha := now, tipo := TipoCambio.CORRAL, valorAnterior := cerdo.corral_id,
              valorNuevo := pid, observaciones := none } with corral_id := pid })) =
        db.cerdos.map (fun c => if c.id == idC then
          { registrarCambio cerdo
              { fecha := now, tipo := TipoCambio.CORRAL, valorAnterior := cerdo.corral_id,
                valorNuevo := pid, observaciones := none } with corral_id := pid } else c)
      from rfl]
    rw [find?_map_update (fun c => c.id) (fun _ =>
        { registrarCambio cerdo
            { fecha := now, tipo := TipoCambio.CORRAL, valorAnterior := cerdo.corral_id,
              valorNuevo := pid, observaciones := none } with corral_id := pid })
      idC db.cerdos cerdo hfc2 rfl]
    rfl

/-- Witness for the C4 amended theorem at the concrete cross lot state. -/
theorem transferirCerdo_ignoraLote_witness :
    ∃ db1, transferirCerdo ⟨[loteL1, loteL2], [corralA, corralC], [cerdoActivo]⟩ "p2" "cC"
        "t1" = .ok db1 ∧
      (findCerdo db1 "p2").map (fun c => c.corral_id) = some "cC" :=
  transferirCerdo_ignoraLote ⟨[loteL1, loteL2], [corralA, corralC], [cerdoActivo]⟩ "p2" "cC"
    "t1" cerdoActivo corralC (by with_unfolding_all decide) (by with_unfolding_all decide)
    (by with_unfolding_all decide) (by with_unfolding_all decide)

/-- C5 counterexample: the claim says admission against a FINALIZED lot
fails; on the code, crearCerdo against the FINALIZADO lot l2 succeeds. -/
theorem crearCerdo_loteFinalizado_acepta :
    loteL2.estado = EstadoLote.FINALIZADO ∧
    (crearCerdo ⟨[loteL2], [corralC], []⟩ ⟨"T-000009", "l2", "cC", 20, ""⟩ "p9" "t1").isOk
      = true := by
  with_unfolding_all decide

/-- C5 amended: crearCerdo checks only that the lot row exists, never its
state: admission succeeds exactly when the lot exists, the pen exists and
belongs to that lot with free capacity, and the tag is unused, whether the
lot is ACTIVE or FINALIZED. -/
theorem crearCerdo_isOk_iff (db : DB) (data : ICerdoBase) (newId now : String) :
    (crearCerdo db data newId now).isOk = true ↔
      ((findLote db data.lote_id).isSome = true ∧
       (∃ corral, db.corrales.find?
            (fun c => c.id == data.corral_id && c.lote_id == data.lote_id) = some corral ∧
          corral.ocupacion_actual < corral.capacidad) ∧
       db.cerdos.any (fun c => c.arete == data.arete) = false) := by
  cases hl : findLote db data.lote_id with
  | none => simp [crearCerdo, crearCerdoTx, hl, Except.isOk, Except.toBool]
  | some lote =>
    cases hc : db.corrales.find?
        (fun c => c.id == data.corral_id && c.lote_id == data.lote_id) with
    | none => simp [crearCerdo, crearCerdoTx, hl, hc, Except.isOk, Except.toBool]
    | some corral =>
      simp only [crearCerdo, crearCerdoTx, hl, hc]
      by_cases hcap : corral.ocupacion_actual ≥ corral.capacidad
      · rw [if_pos hcap]
        simp only [Except.isOk, Except.toBool, Option.isSome_some, Option.some.injEq,
          Bool.false_eq_true, false_iff]
        intro h
        rcases h with ⟨_, ⟨c1, hc1, hlt⟩, _⟩
        subst hc1
        exact absurd hlt (not_lt.mpr hcap)
      · rw [if_neg hcap]
        by_cases ha : db.cerdos.any (fun c => c.arete == data.arete) = true
        · rw [if_pos ha]
          simp only [Except.isOk, Except.toBool, Option.isSome_some, Option.some.injEq,
            Bool.false_eq_true, false_iff]
          intro h
          rcases h with ⟨_, _, hfalse⟩
          rw [ha] at hfalse
          exact absurd hfalse (by simp)
        · rw [if_neg ha]
          simp only [Except.isOk, Except.toBool, Option.isSome_some, Option.some.injEq,
            true_iff]
          refine ⟨trivial, ⟨corral, rfl, not_le.mp hcap⟩, by simpa using ha⟩

/-- C6 counterexample: the claim says a pen left with no active pigs stores
an average weight of 0; on the code, after transferring the only active pig
out of corralA the stored average of corralA remains 20, while corralB gets
the mean 20 of its new occupant. -/
theorem promedioCorralVacioNoCero :
    (transferirCerdo ⟨[loteL1], [corralA, corralB], [cerdoActivo]⟩ "p2" "cB"
        "t1").toOption.map (fun db1 => (pesoPromedioDe db1 "cA", pesoPromedioDe db1 "cB")) =
      some (some 20, some 20) := by
  with_unfolding_all decide

/-- C6 amended: the recomputation helper stores the arithmetic mean of the
active pigs of the pen whenever at least one is present, and leaves the
whole store, including the stale stored average, untouched when the pen has
no active pigs; it never writes 0. -/
theorem actualizarPesoPromedio_caracterizacion (db : DB) (cid : String) :
    (0 < (cerdosActivosEnCorral db cid).length →
      findCorral (actualizarPesoPromedioCorral db cid) cid =
        (findCorral db cid).map
          (fun c => { c with peso_promedio_actual := promedioCorral db cid })) ∧
    ((cerdosActivosEnCorral db cid).length = 0 →
      actualizarPesoPromedioCorral db cid = db) := by
  constructor
  · intro h
    unfold actualizarPesoPromedioCorral
    rw [if_pos h]
    show (updateCorralesById db.corrales cid
        (fun c => { c with peso_promedio_actual := promedioCorral db cid })).find?
        (fun c => c.id == cid) =
      (db.corrales.find? (fun c => c.id == cid)).map
        (fun c => { c with peso_promedio_actual := promedioCorral db cid })
    rw [updateCorralesById,
      find?_map_update_all (fun c => c.id)
        (fun c => { c with peso_promedio_actual := promedioCorral db cid })
        cid cid db.corrales (fun y => rfl)]
    cases hfc : db.corrales.find? (fun c => c.id == cid) with
    | none => rfl
    | some c =>
      have hc0 := List.find?_some hfc
      have hc : c.id = cid := by simpa using hc0
      simp [hc]
  · intro h
    unfold actualizarPesoPromedioCorral
    rw [if_neg (by omega)]

/-- Witness for the C6 amended theorem at a pen with one active pig. -/
theorem actualizarPesoPromedio_caracterizacion_witness :
    findCorral (actualizarPesoPromedioCorral ⟨[loteL1], [corralA], [cerdoActivo]⟩ "cA") "cA" =
      (findCorral ⟨[loteL1], [corralA], [cerdoActivo]⟩ "cA").map
        (fun c => { c with
          peso_promedio_actual :=
            promedioCorral ⟨[loteL1], [corralA], [cerdoActivo]⟩ "cA" }) :=
  (actualizarPesoPromedio_caracterizacion ⟨[loteL1], [corralA], [cerdoActivo]⟩ "cA").1
    (by with_unfolding_all decide)

/-- C8: registrarPesaje rejects a non positive weight with an INVALID_WEIGHT
error; with a positive previous weight it commits exactly when the relative
variation is at most 30 percent and otherwise rejects with the suspicious
variation INVALID_WEIGHT error; with a non positive previous weight the
variation check is skipped and any positive weight commits. -/
theorem registrarPesaje_validacionPeso (db : DB) (id : String) (cerdo : Cerdo) (w : Rat)
    (now : String) (hfind : findCerdo db id = some cerdo) :
    (w ≤ 0 → registrarPesaje db id w now =
      .error ⟨CerdoErrorType.INVALID_WEIGHT, "El peso debe ser mayor que 0"⟩) ∧
    (0 < w → 0 < cerdo.peso_actual →
      ((registrarPesaje db id w now).isOk = true ↔
        |w - cerdo.peso_actual| / cerdo.peso_actual ≤ 3/10)) ∧
    (0 < w → 0 < cerdo.peso_actual → 3/10 < |w - cerdo.peso_actual| / cerdo.peso_actual →
      registrarPesaje db id w now =
        .error ⟨CerdoErrorType.INVALID_WEIGHT,
          "Variacion de peso sospechosa. Por favor verificar."⟩) ∧
    (0 < w → cerdo.peso_actual ≤ 0 → (registrarPesaje db id w now).isOk = true) := by
  refine ⟨?_, ?_, ?_, ?_⟩
  · intro hw
    simp only [registrarPesaje, registrarPesajeTx, hfind]
    rw [if_pos hw]
  · intro hw hpw
    simp only [registrarPesaje, registrarPesajeTx, hfind]
    rw [if_neg (not_le.mpr hw), if_pos hpw]
    simp only [validarPeso]
    by_cases hv : 3/10 < |w - cerdo.peso_actual| / cerdo.peso_actual
    · rw [if_pos hv]
      simp only [Except.isOk, Except.toBool, Bool.false_eq_true, false_iff, not_le]
      exact hv
    · rw [if_neg hv]
      simp only [Except.isOk, Except.toBool, true_iff]
      exact not_lt.mp hv
  · intro hw hpw hv
    simp only [registrarPesaje, registrarPesajeTx, hfind]
    rw [if_neg (not_le.mpr hw), if_pos hpw]
    simp only [validarPeso]
    rw [if_pos hv]
  · intro hw hpw
    simp only [registrarPesaje, registrarPesajeTx, hfind]
    rw [if_neg (not_le.mpr hw), if_neg (not_lt.mpr hpw)]
    rfl

/-- Witness for the C8 theorem at a concrete accepted weighing. -/
theorem registrarPesaje_validacionPeso_witness :
    (registrarPesaje ⟨[loteL1], [corralA], [cerdoActivo]⟩ "p2" 24 "t1").isOk = true :=
  ((registrarPesaje_validacionPeso ⟨[loteL1], [corralA], [cerdoActivo]⟩ "p2" cerdoActivo 24
      "t1" (by with_unfolding_all decide)).2.1 (by norm_num)
    (by with_unfolding_all decide)).mpr (by with_unfolding_all decide)

/-- C10 counterexample: the claim says a committed pen update always keeps
occupancy at most capacity; on the code, an update that only sets
ocupacion_actual to 99 commits against a pen with capacity 10, leaving
occupancy 99 above capacity. -/
theorem actualizarCorral_ocupacionSinChequeo :
    (actualizarCorral ⟨[loteL1], [corralA], []⟩ "cA"
        { ocupacion_actual := some 99 }).toOption.map
        (fun odb => odb.map (fun db1 =>
          (ocupacionDe db1 "cA", (findCorral db1 "cA").map (fun c => c.capacidad)))) =
      some (some (some 99, some 10)) := by
  with_unfolding_all decide

/-- C10 amended: actualizarCorral rejects a provided capacity that is not
positive or is below the current occupancy of the row, and a committed
update that does not itself set ocupacion_actual preserves the invariant
that occupancy lies between 0 and capacity; an update that sets
ocupacion_actual is applied without any check against the capacity. -/
theorem actualizarCorral_invariante (db : DB) (id : String) (corral : Corral)
    (data : CorralUpdateData) (hfind : findCorral db id = some corral) :
    (∀ k, data.capacidad = some k → (k ≤ 0 ∨ k < corral.ocupacion_actual) →
      ∃ msg, actualizarCorral db id data = .error msg) ∧
    (data.ocupacion_actual = none →
      0 ≤ corral.ocupacion_actual → corral.ocupacion_actual ≤ corral.capacidad →
      ∀ db1, actualizarCorral db id data = .ok (some db1) →
      ∀ c1, findCorral db1 id = some c1 →
        0 ≤ c1.ocupacion_actual ∧ c1.ocupacion_actual ≤ c1.capacidad) := by
  constructor
  · intro k hk hbad
    simp only [actualizarCorral, hfind]
    cases hlc : checkLoteChange db id data with
    | error e => exact ⟨e, rfl⟩
    | ok _ =>
      cases hnc : checkNumeroChange db id data with
      | error e => exact ⟨e, rfl⟩
      | ok _ =>
        cases hcc : checkCapacidadChange corral data with
        | error e => exact ⟨e, rfl⟩
        | ok _ =>
          exfalso
          simp only [checkCapacidadChange, hk] at hcc
          rcases hbad with hb | hb
          · rw [if_pos hb] at hcc
            exact Except.noConfusion hcc
          · by_cases hk0 : k ≤ 0
            · rw [if_pos hk0] at hcc
              exact Except.noConfusion hcc
            · rw [if_neg hk0, if_pos hb] at hcc
              exact Except.noConfusion hcc
  · intro hocc h0 hcap db1 hok c1 hc1
    simp only [actualizarCorral, hfind] at hok
    cases hlc : checkLoteChange db id data with
    | error e => rw [hlc] at hok; exact Except.noConfusion hok
    | ok u =>
      rw [hlc] at hok
      cases hnc : checkNumeroChange db id data with
      | error e => rw [hnc] at hok; exact Except.noConfusion hok
      | ok v =>
        rw [hnc] at hok
        cases hcc : checkCapacidadChange corral data with
        | error e => rw [hcc] at hok; exact Except.noConfusion hok
        | ok z =>
          rw [hcc] at hok
          have hdb1 : db1 = { db with
              corrales := updateCorralesById db.corrales id
                (fun c => applyCorralUpdate c data) } := by
            have := Except.ok.inj hok
            have := Option.some.inj this
            exact this.symm
          subst hdb1
          have hfc2 : db.corrales.find? (fun c => c.id == id) = some corral := hfind
          have hup : findCorral { db with
              corrales := updateCorralesById db.corrales id
                (fun c => applyCorralUpdate c data) } id = some (applyCorralUpdate corral data) := by
            show (updateCorralesById db.corrales id (fun c => applyCorralUpdate c data)).find?
              (fun c => c.id == id) = some (applyCorralUpdate corral data)
            rw [updateCorralesById]
            exact find?_map_update (fun c : Corral => c.id) (fun c => applyCorralUpdate c data)
              id db.corrales corral hfc2 rfl
          rw [hup] at hc1
          have hc1e : c1 = applyCorralUpdate corral data := (Option.some.inj hc1).symm
          subst hc1e
          simp only [applyCorralUpdate, hocc, Option.getD_none]
          cases hcapd : data.capacidad with
          | none =>
            simp only [Option.getD_none]
            exact ⟨h0, hcap⟩
          | some k =>
            simp only [Option.getD_some]
            simp only [checkCapacidadChange, hcapd] at hcc
            by_cases hk0 : k ≤ 0
            · rw [if_pos hk0] at hcc
              exact absurd hcc (by simp)
            · rw [if_neg hk0] at hcc
              by_cases hklt : k < corral.ocupacion_actual
              · rw [if_pos hklt] at hcc
                exact absurd hcc (by simp)
              · exact ⟨h0, by omega⟩

/-- Witness for the C10 amended theorem: a capacity of zero is rejected. -/
theorem actualizarCorral_invariante_witness :
    ∃ msg, actualizarCorral ⟨[loteL1], [corralA], []⟩ "cA" { capacidad := some 0 } =
      .error msg :=
  (actualizarCorral_invariante ⟨[loteL1], [corralA], []⟩ "cA" corralA { capacidad := some 0 }
    (by with_unfolding_all decide)).1 0 rfl (Or.inl (by norm_num))

/-- Computation rule of splitsAt when the separator does not start here. -/
theorem splitsAt_cons_neg (sep : List Char) (c : Char) (cs : List Char)
    (h : sep.isPrefixOf (c :: cs) = false) :
    splitsAt sep (c :: cs) = (splitsAt sep cs).map (fun p => (c :: p.1, p.2)) := by
  simp only [splitsAt]
  rw [h]
  rfl

/-- Computation rule of splitsAt when the separator starts here. -/
theorem splitsAt_cons_pos (sep : List Char) (c : Char) (cs : List Char)
    (h : sep.isPrefixOf (c :: cs) = true) :
    splitsAt sep (c :: cs) =
      ([], (c :: cs).drop sep.length) :: (splitsAt sep cs).map (fun p => (c :: p.1, p.2)) := by
  simp only [splitsAt]
  rw [h]
  rfl

/-- No occurrence of the separator can start inside a block that avoids its
first character, so splits of the whole string are splits of the rest. -/
theorem splitsAt_append_noHead (s0 : Char) (sep xs ys : List Char)
    (h : ∀ c ∈ xs, ¬ c = s0) :
    splitsAt (s0 :: sep) (xs ++ ys) =
      (splitsAt (s0 :: sep) ys).map (fun p => (xs ++ p.1, p.2)) := by
  induction xs with
  | nil => simp
  | cons c cs ih =>
    have hc0 : (s0 == c) = false :=
      beq_eq_false_iff_ne.mpr (fun he => h c (List.mem_cons_self c cs) he.symm)
    have hc : (s0 :: sep).isPrefixOf (c :: (cs ++ ys)) = false := by
      simp [List.isPrefixOf, hc0]
    rw [List.cons_append, splitsAt_cons_neg _ _ _ hc,
      ih (fun d hd => h d (List.mem_cons_of_mem _ hd))]
    simp [List.map_map, Function.comp]

/-- Emptiness of splitsAt propagates through a block avoiding the head of
the separator. -/
theorem splitsAt_nil_of_append (s0 : Char) (sep xs ys : List Char)
    (hx : ∀ c ∈ xs, ¬ c = s0) (hy : splitsAt (s0 :: sep) ys = []) :
    splitsAt (s0 :: sep) (xs ++ ys) = [] := by
  rw [splitsAt_append_noHead _ _ _ _ hx, hy]
  rfl

/-- Emptiness of splitsAt propagates through one refuted position. -/
theorem splitsAt_nil_cons (sep : List Char) (c : Char) (cs : List Char)
    (hp : sep.isPrefixOf (c :: cs) = false) (h : splitsAt sep cs = []) :
    splitsAt sep (c :: cs) = [] := by
  rw [splitsAt_cons_neg _ _ _ hp, h]
  rfl

/-- The space hyphen space separator cannot match where the character after
the space is not a hyphen. -/
theorem prefixGuion_false (o0 : Char) (rest : List Char) (h : ¬ o0 = '-') :
    ([' ', '-', ' '] : List Char).isPrefixOf (' ' :: o0 :: rest) = false := by
  have h0 : ('-' == o0) = false := beq_eq_false_iff_ne.mpr (fun he => h he.symm)
  simp [List.isPrefixOf, h0]

/-- The arrow separator cannot match where the character after the space is
not a hyphen. -/
theorem prefixFlecha_false (n0 : Char) (rest : List Char) (h : ¬ n0 = '-') :
    ([' ', '-', '>', ' '] : List Char).isPrefixOf (' ' :: n0 :: rest) = false := by
  have h0 : ('-' == n0) = false := beq_eq_false_iff_ne.mpr (fun he => h he.symm)
  simp [List.isPrefixOf, h0]

/-- The space hyphen space separator never occurs inside an encoded note
part whose note avoids spaces. -/
theorem guionNil_note (s : List Char) (hs : ∀ c ∈ s, ¬ c = ' ') :
    splitsAt [' ', '-', ' '] (' ' :: '(' :: (s ++ [')'])) = [] := by
  refine splitsAt_nil_cons _ _ _ (by rfl) ?_
  refine splitsAt_nil_cons _ _ _ (by rfl) ?_
  refine splitsAt_nil_of_append ' ' _ s [')'] hs ?_
  exact splitsAt_nil_cons _ _ _ (by rfl) rfl

/-- The arrow separator never occurs inside an encoded note part whose note
avoids spaces. -/
theorem flechaNil_note (s : List Char) (hs : ∀ c ∈ s, ¬ c = ' ') :
    splitsAt [' ', '-', '>', ' '] (' ' :: '(' :: (s ++ [')'])) = [] := by
  refine splitsAt_nil_cons _ _ _ (by rfl) ?_
  refine splitsAt_nil_cons _ _ _ (by rfl) ?_
  refine splitsAt_nil_of_append ' ' _ s [')'] hs ?_
  exact splitsAt_nil_cons _ _ _ (by rfl) rfl

/-- The space hyphen space separator never occurs from the arrow region on,
when the new value starts with no hyphen and avoids spaces. -/
theorem guionNil_flecha (n0 : Char) (N' tail : List Char) (hn0 : ¬ n0 = '-')
    (hN : ∀ c ∈ n0 :: N', ¬ c = ' ') (htail : splitsAt [' ', '-', ' '] tail = []) :
    splitsAt [' ', '-', ' '] (' ' :: '-' :: '>' :: ' ' :: ((n0 :: N') ++ tail)) = [] := by
  refine splitsAt_nil_cons _ _ _ (by rfl) ?_
  refine splitsAt_nil_cons _ _ _ (by rfl) ?_
  refine splitsAt_nil_cons _ _ _ (by rfl) ?_
  show splitsAt [' ', '-', ' '] (' ' :: n0 :: (N' ++ tail)) = []
  refine splitsAt_nil_cons _ _ _ (prefixGuion_false n0 _ hn0) ?_
  exact splitsAt_nil_of_append ' ' _ (n0 :: N') tail hN htail

/-- The space hyphen space separator never occurs from the colon space on. -/
theorem guionNil_desdeColon (o0 n0 : Char) (O' N' tail : List Char)
    (ho0 : ¬ o0 = '-') (hO : ∀ c ∈ o0 :: O', ¬ c = ' ')
    (hn0 : ¬ n0 = '-') (hN : ∀ c ∈ n0 :: N', ¬ c = ' ')
    (htail : splitsAt [' ', '-', ' '] tail = []) :
    splitsAt [' ', '-', ' ']
      (' ' :: ((o0 :: O') ++ (' ' :: '-' :: '>' :: ' ' :: ((n0 :: N') ++ tail)))) = [] := by
  show splitsAt [' ', '-', ' ']
    (' ' :: o0 :: (O' ++ (' ' :: '-' :: '>' :: ' ' :: ((n0 :: N') ++ tail)))) = []
  refine splitsAt_nil_cons _ _ _ (prefixGuion_false o0 _ ho0) ?_
  refine splitsAt_nil_of_append ' ' _ (o0 :: O') _ hO ?_
  exact guionNil_flecha n0 N' tail hn0 hN htail

/-- The space hyphen space separator never occurs inside the part of an
encoded line that follows the real separator. -/
theorem guionNil_M (tcl : List Char) (hT : ∀ c ∈ tcl, ¬ c = ' ')
    (o0 n0 : Char) (O' N' tail : List Char)
    (ho0 : ¬ o0 = '-') (hO : ∀ c ∈ o0 :: O', ¬ c = ' ')
    (hn0 : ¬ n0 = '-') (hN : ∀ c ∈ n0 :: N', ¬ c = ' ')
    (htail : splitsAt [' ', '-', ' '] tail = []) :
    splitsAt [' ', '-', ' ']
      (tcl ++ ':' :: ' ' :: ((o0 :: O') ++ (' ' :: '-' :: '>' :: ' ' ::
        ((n0 :: N') ++ tail)))) = [] := by
  refine splitsAt_nil_of_append ' ' _ tcl _ hT ?_
  refine splitsAt_nil_cons _ _ _ (by rfl) ?_
  exact guionNil_desdeColon o0 n0 O' N' tail ho0 hO hn0 hN htail

/-- The space hyphen space separator matches at its own occurrence. -/
theorem isPrefixOfGuion (M : List Char) :
    ([' ', '-', ' '] : List Char).isPrefixOf (' ' :: '-' :: ' ' :: M) = true := by
  simp [List.isPrefixOf]

/-- The arrow separator matches at its own occurrence. -/
theorem isPrefixOfFlecha (M : List Char) :
    ([' ', '-', '>', ' '] : List Char).isPrefixOf (' ' :: '-' :: '>' :: ' ' :: M) = true := by
  simp [List.isPrefixOf]

/-- The first greedy group of the regex is forced: the encoded line splits
around the space hyphen space separator exactly at the date field. -/
theorem guionSingleton (F : List Char) (hF : ∀ c ∈ F, ¬ c = ' ') (M : List Char)
    (hM0 : ([' ', '-', ' '] : List Char).isPrefixOf (' ' :: M) = false)
    (hMnil : splitsAt [' ', '-', ' '] M = []) :
    splitsAt [' ', '-', ' '] (F ++ ' ' :: '-' :: ' ' :: M) = [(F, M)] := by
  rw [splitsAt_append_noHead ' ' _ F _ hF]
  rw [splitsAt_cons_pos _ _ _ (isPrefixOfGuion M)]
  have h1 : splitsAt [' ', '-', ' '] (' ' :: M) = [] :=
    splitsAt_nil_cons _ _ _ hM0 hMnil
  have h2 : splitsAt [' ', '-', ' '] ('-' :: ' ' :: M) = [] :=
    splitsAt_nil_cons _ _ _ (by rfl) h1
  rw [h2]
  simp

/-- The third greedy group of the regex is forced: the remainder splits
around the arrow separator exactly at the old value. -/
theorem flechaSingleton (o0 n0 : Char) (O' N' tail : List Char)
    (hO : ∀ c ∈ o0 :: O', ¬ c = ' ') (hn0 : ¬ n0 = '-')
    (hN : ∀ c ∈ n0 :: N', ¬ c = ' ')
    (htail : splitsAt [' ', '-', '>', ' '] tail = []) :
    splitsAt [' ', '-', '>', ' ']
      ((o0 :: O') ++ ' ' :: '-' :: '>' :: ' ' :: ((n0 :: N') ++ tail)) =
      [((o0 :: O'), (n0 :: N') ++ tail)] := by
  rw [splitsAt_append_noHead ' ' _ _ _ hO]
  rw [splitsAt_cons_pos _ _ _ (isPrefixOfFlecha ((n0 :: N') ++ tail))]
  have h3 : splitsAt [' ', '-', '>', ' '] (' ' :: ((n0 :: N') ++ tail)) = [] := by
    show splitsAt [' ', '-', '>', ' '] (' ' :: n0 :: (N' ++ tail)) = []
    refine splitsAt_nil_cons _ _ _ (prefixFlecha_false n0 _ hn0) ?_
    exact splitsAt_nil_of_append ' ' _ (n0 :: N') tail hN htail
  have h2 : splitsAt [' ', '-', '>', ' '] ('>' :: ' ' :: ((n0 :: N') ++ tail)) = [] :=
    splitsAt_nil_cons _ _ _ (by rfl) h3
  have h1 : splitsAt [' ', '-', '>', ' '] ('-' :: '>' :: ' ' :: ((n0 :: N') ++ tail)) = [] :=
    splitsAt_nil_cons _ _ _ (by rfl) h2
  rw [h1]
  simp

/-- Appending preserves the data list of a string. -/
theorem data_append (s t : String) : (s ++ t).data = s.data ++ t.data := rfl

/-- Rebuilding a string from its data list gives the string back. -/
theorem mk_data (s : String) : String.mk s.data = s := by cases s; rfl

/-- A nonempty string has a nonempty data list. -/
theorem data_ne_nil (s : String) (h : s ≠ "") : s.data ≠ [] := by
  intro hd
  apply h
  cases s with
  | mk d =>
    simp only at hd
    rw [hd]

/-- The note group fails on a remainder that starts with a character that is
neither whitespace nor an opening parenthesis. -/
theorem matchNoteGroup_notParen (c : Char) (cs : List Char)
    (hw : isJsWs c = false) (hp : ¬ c = '(') :
    matchNoteGroup (c :: cs) = none := by
  unfold matchNoteGroup
  rw [List.dropWhile_cons, hw]
  simp only [Bool.false_eq_true, if_false]
  split
  · rename_i rest heq
    injection heq with h1 h2
    exact absurd h1 hp
  · rfl

/-- The note group accepts the encoded note remainder and recovers the note. -/
theorem matchNoteGroup_note (s : List Char) :
    matchNoteGroup (' ' :: '(' :: (s ++ [')'])) = some s := by
  unfold matchNoteGroup
  rw [List.dropWhile_cons, show isJsWs ' ' = true from rfl]
  simp only [if_true]
  rw [List.dropWhile_cons, show isJsWs '(' = false from rfl]
  simp only [Bool.false_eq_true, if_false]
  rw [List.getLast?_concat]
  simp [List.dropLast_concat]

/-- The lazy fourth group consumes exactly a value that is free of
whitespace and parentheses when the line ends right after it. -/
theorem matchG4Aux_noNote (ns : List Char) : ∀ acc, ns ≠ [] →
    (∀ c ∈ ns, isJsWs c = false ∧ ¬ c = '(') →
    matchG4Aux acc ns = some (acc ++ ns, none) := by
  induction ns with
  | nil =>
    intro acc h _
    exact absurd rfl h
  | cons c cs ih =>
    intro acc _ hch
    cases cs with
    | nil => rfl
    | cons c2 cs2 =>
      have h2 := hch c2 (by simp)
      rw [matchG4Aux, matchNoteGroup_notParen c2 cs2 h2.1 h2.2]
      simp only [List.isEmpty_cons, Bool.false_eq_true, if_false]
      rw [ih (acc ++ [c]) (by simp) (fun d hd => hch d (by simp [hd]))]
      simp

/-- The lazy fourth group consumes exactly such a value when an encoded
note part follows, and the optional group recovers the note. -/
theorem matchG4Aux_note (ns s : List Char) : ∀ acc, ns ≠ [] →
    (∀ c ∈ ns, isJsWs c = false ∧ ¬ c = '(') →
    matchG4Aux acc (ns ++ (' ' :: '(' :: (s ++ [')']))) = some (acc ++ ns, some s) := by
  induction ns with
  | nil =>
    intro acc h _
    exact absurd rfl h
  | cons c cs ih =>
    intro acc _ hch
    cases cs with
    | nil =>
      show matchG4Aux acc (c :: (' ' :: '(' :: (s ++ [')']))) = some (acc ++ [c], some s)
      rw [matchG4Aux, matchNoteGroup_note]
    | cons c2 cs2 =>
      have h2 := hch c2 (by simp)
      show matchG4Aux acc (c :: (c2 :: (cs2 ++ (' ' :: '(' :: (s ++ [')']))))) = _
      rw [matchG4Aux]
      rw [matchNoteGroup_notParen c2 _ h2.1 h2.2]
      simp only [List.isEmpty_cons, Bool.false_eq_true, if_false]
      rw [show (c2 :: (cs2 ++ (' ' :: '(' :: (s ++ [')'])))) =
        ((c2 :: cs2) ++ (' ' :: '(' :: (s ++ [')']))) from rfl]
      rw [ih (acc ++ [c]) (by simp) (fun d hd => hch d (by simp [hd]))]
      simp

/-- The type alternation accepts the PESO marker. -/
theorem matchTipo_peso (rest : List Char) :
    matchTipo ('P' :: 'E' :: 'S' :: 'O' :: ':' :: ' ' :: rest) =
      some (TipoCambio.PESO, rest) := by
  simp [matchTipo, List.isPrefixOf]

/-- The type alternation accepts the ESTADO marker. -/
theorem matchTipo_estado (rest : List Char) :
    matchTipo ('E' :: 'S' :: 'T' :: 'A' :: 'D' :: 'O' :: ':' :: ' ' :: rest) =
      some (TipoCambio.ESTADO, rest) := by
  simp [matchTipo, List.isPrefixOf]

/-- The type alternation accepts the CORRAL marker. -/
theorem matchTipo_corral (rest : List Char) :
    matchTipo ('C' :: 'O' :: 'R' :: 'R' :: 'A' :: 'L' :: ':' :: ' ' :: rest) =
      some (TipoCambio.CORRAL, rest) := by
  simp [matchTipo, List.isPrefixOf]

/-- Evaluation of firstSome on a single candidate. -/
theorem firstSome_single {α β : Type} (f : α → Option β) (a : α) :
    firstSome f [a] = f a := by
  cases h : f a with
  | none => simp [firstSome, h]
  | some b => simp [firstSome, h]

/-- Core computation of matchLinea on a well formed encoded line, stated
over its decomposed parts: with both separators forced to their unique
occurrence, the regex recovers every field. -/
theorem matchLinea_core (F tcl : List Char) (tipo : TipoCambio)
    (o0 n0 : Char) (O' N' tail : List Char) (noteOpt : Option (List Char))
    (hF : F ≠ []) (hFs : ∀ c ∈ F, ¬ c = ' ')
    (hT : ∀ c ∈ tcl, ¬ c = ' ')
    (hT0 : ([' ', '-', ' '] : List Char).isPrefixOf
      (' ' :: (tcl ++ ':' :: ' ' :: ((o0 :: O') ++ (' ' :: '-' :: '>' :: ' ' ::
        ((n0 :: N') ++ tail))))) = false)
    (hmt : matchTipo (tcl ++ ':' :: ' ' :: ((o0 :: O') ++ (' ' :: '-' :: '>' :: ' ' ::
        ((n0 :: N') ++ tail)))) =
      some (tipo, (o0 :: O') ++ (' ' :: '-' :: '>' :: ' ' :: ((n0 :: N') ++ tail))))
    (ho0 : ¬ o0 = '-') (hOs : ∀ c ∈ o0 :: O', ¬ c = ' ')
    (hn0 : ¬ n0 = '-') (hNs : ∀ c ∈ n0 :: N', ¬ c = ' ')
    (htailGu : splitsAt [' ', '-', ' '] tail = [])
    (htailFl : splitsAt [' ', '-', '>', ' '] tail = [])
    (hg4 : matchG4Aux [] ((n0 :: N') ++ tail) = some (n0 :: N', noteOpt)) :
    matchLinea (F ++ ' ' :: '-' :: ' ' :: (tcl ++ ':' :: ' ' :: ((o0 :: O') ++
        (' ' :: '-' :: '>' :: ' ' :: ((n0 :: N') ++ tail))))) =
      some { fecha := String.mk F, tipo := tipo, valorAnterior := String.mk (o0 :: O'),
             valorNuevo := String.mk (n0 :: N'),
             observaciones := noteOpt.map String.mk } := by
  unfold matchLinea
  rw [show (" - " : String).data = [' ', '-', ' '] from rfl]
  rw [show (" -> " : String).data = [' ', '-', '>', ' '] from rfl]
  rw [guionSingleton F hFs _ hT0
    (guionNil_M tcl hT o0 n0 O' N' tail ho0 hOs hn0 hNs htailGu)]
  rw [List.reverse_singleton, firstSome_single]
  have hFe : F.isEmpty = false := by
    cases F with
    | nil => exact absurd rfl hF
    | cons _ _ => rfl
  simp only [hFe, Bool.false_eq_true, if_false]
  simp only [hmt]
  rw [flechaSingleton o0 n0 O' N' tail hOs hn0 hNs htailFl]
  rw [List.reverse_singleton, firstSome_single]
  simp only [List.isEmpty_cons, Bool.false_eq_true, if_false]
  simp only [hg4]

/-- A field that satisfies campoSinChars has no space anywhere. -/
theorem campo_noSpace (s : String) (av : List Char) (h : campoSinChars s av) :
    ∀ c ∈ s.data, ¬ c = ' ' := by
  intro c hc he
  have hw := (h.2 c hc).1
  rw [he] at hw
  simp [isJsWs] at hw

/-- A new value field satisfies the character conditions the lazy group
walk needs. -/
theorem campo_g4 (s : String) (h : campoSinChars s ['-', '(']) :
    ∀ c ∈ s.data, isJsWs c = false ∧ ¬ c = '(' := by
  intro c hc
  refine ⟨(h.2 c hc).1, fun he => ?_⟩
  exact (h.2 c hc).2 (by simp [he])

/-- The regex of obtenerHistorial recovers a safe change record from its
encoded line. -/
theorem matchLinea_encode (cb : Cambio) (hgood : cambioSeguro cb) :
    matchLinea (encodeCambio cb).data = some cb := by
  obtain ⟨F, tipo, O, N, obs⟩ := cb
  obtain ⟨hFc, hOc, hNc, hobs⟩ := hgood
  obtain ⟨o0, O', hOdata⟩ : ∃ a l, O.data = a :: l := by
    cases h : O.data with
    | nil => exact absurd h (data_ne_nil O hOc.1)
    | cons a l => exact ⟨a, l, rfl⟩
  obtain ⟨n0, N', hNdata⟩ : ∃ a l, N.data = a :: l := by
    cases h : N.data with
    | nil => exact absurd h (data_ne_nil N hNc.1)
    | cons a l => exact ⟨a, l, rfl⟩
  have hFs := campo_noSpace F _ hFc
  have hOs : ∀ c ∈ o0 :: O', ¬ c = ' ' := hOdata ▸ campo_noSpace O _ hOc
  have hNs : ∀ c ∈ n0 :: N', ¬ c = ' ' := hNdata ▸ campo_noSpace N _ hNc
  have ho0 : ¬ o0 = '-' := by
    intro he
    have hm : o0 ∈ O.data := by rw [hOdata]; simp
    exact (hOc.2 o0 hm).2 (by simp [he])
  have hn0 : ¬ n0 = '-' := by
    intro he
    have hm : n0 ∈ N.data := by rw [hNdata]; simp
    exact (hNc.2 n0 hm).2 (by simp [he])
  have hNg4 : ∀ c ∈ n0 :: N', isJsWs c = false ∧ ¬ c = '(' := hNdata ▸ campo_g4 N hNc
  have hFne : F.data ≠ [] := data_ne_nil F hFc.1
  cases obs with
  | none =>
    have hg4 : matchG4Aux [] ((n0 :: N') ++ ([] : List Char)) = some (n0 :: N', none) := by
      rw [List.append_nil]
      simpa using matchG4Aux_noNote (n0 :: N') [] (by simp) hNg4
    cases tipo with
    | PESO =>
      have hL : (encodeCambio
          { fecha := F, tipo := .PESO, valorAnterior := O, valorNuevo := N,
            observaciones := none }).data =
          F.data ++ ' ' :: '-' :: ' ' :: (['P', 'E', 'S', 'O'] ++ ':' :: ' ' ::
            ((o0 :: O') ++ (' ' :: '-' :: '>' :: ' ' ::
              ((n0 :: N') ++ ([] : List Char))))) := by
        simp [encodeCambio, data_append, TipoCambio.render, hOdata, hNdata,
          show ("PESO" : String).data = ['P', 'E', 'S', 'O'] from rfl,
          show (" - " : String).data = [' ', '-', ' '] from rfl,
          show (": " : String).data = [':', ' '] from rfl,
          show (" -> " : String).data = [' ', '-', '>', ' '] from rfl,
          show ("" : String).data = [] from rfl]
      rw [hL, matchLinea_core F.data ['P', 'E', 'S', 'O'] .PESO o0 n0 O' N' [] none
        hFne hFs (by decide) (by rfl) (matchTipo_peso _) ho0 hOs hn0 hNs rfl rfl hg4]
      simp [mk_data, ← hOdata, ← hNdata]
    | ESTADO =>
      have hL : (encodeCambio
          { fecha := F, tipo := .ESTADO, valorAnterior := O, valorNuevo := N,
            observaciones := none }).data =
          F.data ++ ' ' :: '-' :: ' ' :: (['E', 'S', 'T', 'A', 'D', 'O'] ++ ':' :: ' ' ::
            ((o0 :: O') ++ (' ' :: '-' :: '>' :: ' ' ::
              ((n0 :: N') ++ ([] : List Char))))) := by
        simp [encodeCambio, data_append, TipoCambio.render, hOdata, hNdata,
          show ("ESTADO" : String).data = ['E', 'S', 'T', 'A', 'D', 'O'] from rfl,
          show (" - " : String).data = [' ', '-', ' '] from rfl,
          show (": " : String).data = [':', ' '] from rfl,
          show (" -> " : String).data = [' ', '-', '>', ' '] from rfl,
          show ("" : String).data = [] from rfl]
      rw [hL, matchLinea_core F.data ['E', 'S', 'T', 'A', 'D', 'O'] .ESTADO o0 n0 O' N' []
        none hFne hFs (by decide) (by rfl) (matchTipo_estado _) ho0 hOs hn0 hNs rfl rfl hg4]
      simp [mk_data, ← hOdata, ← hNdata]
    | CORRAL =>
      have hL : (encodeCambio
          { fecha := F, tipo := .CORRAL, valorAnterior := O, valorNuevo := N,
            observaciones := none }).data =
          F.data ++ ' ' :: '-' :: ' ' :: (['C', 'O', 'R', 'R', 'A', 'L'] ++ ':' :: ' ' ::
            ((o0 :: O') ++ (' ' :: '-' :: '>' :: ' ' ::
              ((n0 :: N') ++ ([] : List Char))))) := by
        simp [encodeCambio, data_append, TipoCambio.render, hOdata, hNdata,
          show ("CORRAL" : String).data = ['C', 'O', 'R', 'R', 'A', 'L'] from rfl,
          show (" - " : String).data = [' ', '-', ' '] from rfl,
          show (": " : String).data = [':', ' '] from rfl,
          show (" -> " : String).data = [' ', '-', '>', ' '] from rfl,
          show ("" : String).data = [] from rfl]
      rw [hL, matchLinea_core F.data ['C', 'O', 'R', 'R', 'A', 'L'] .CORRAL o0 n0 O' N' []
        none hFne hFs (by decide) (by rfl) (matchTipo_corral _) ho0 hOs hn0 hNs rfl rfl hg4]
      simp [mk_data, ← hOdata, ← hNdata]
  | some s =>
    have hsne : s ≠ "" := hobs.1
    have hss := campo_noSpace s _ hobs
    have hg4 : matchG4Aux []
        ((n0 :: N') ++ (' ' :: '(' :: (s.data ++ [')']))) = some (n0 :: N', some s.data) := by
      simpa using matchG4Aux_note (n0 :: N') s.data [] (by simp) hNg4
    have htailGu := guionNil_note s.data hss
    have htailFl := flechaNil_note s.data hss
    cases tipo with
    | PESO =>
      have hL : (encodeCambio
          { fecha := F, tipo := .PESO, valorAnterior := O, valorNuevo := N,
            observaciones := some s }).data =
          F.data ++ ' ' :: '-' :: ' ' :: (['P', 'E', 'S', 'O'] ++ ':' :: ' ' ::
            ((o0 :: O') ++ (' ' :: '-' :: '>' :: ' ' ::
              ((n0 :: N') ++ (' ' :: '(' :: (s.data ++ [')'])))))) := by
        simp [encodeCambio, data_append, TipoCambio.render, hOdata, hNdata, hsne,
          show ("PESO" : String).data = ['P', 'E', 'S', 'O'] from rfl,
          show (" - " : String).data = [' ', '-', ' '] from rfl,
          show (": " : String).data = [':', ' '] from rfl,
          show (" -> " : String).data = [' ', '-', '>', ' '] from rfl,
          show (" (" : String).data = [' ', '('] from rfl,
          show (")" : String).data = [')'] from rfl]
      rw [hL, matchLinea_core F.data ['P', 'E', 'S', 'O'] .PESO o0 n0 O' N'
        (' ' :: '(' :: (s.data ++ [')'])) (some s.data)
        hFne hFs (by decide) (by rfl) (matchTipo_peso _) ho0 hOs hn0 hNs htailGu htailFl hg4]
      simp [mk_data, ← hOdata, ← hNdata]
    | ESTADO =>
      have hL : (encodeCambio
          { fecha := F, tipo := .ESTADO, valorAnterior := O, valorNuevo := N,
            observaciones := some s }).data =
          F.data ++ ' ' :: '-' :: ' ' :: (['E', 'S', 'T', 'A', 'D', 'O'] ++ ':' :: ' ' ::
            ((o0 :: O') ++ (' ' :: '-' :: '>' :: ' ' ::
              ((n0 :: N') ++ (' ' :: '(' :: (s.data ++ [')'])))))) := by
        simp [encodeCambio, data_append, TipoCambio.render, hOdata, hNdata, hsne,
          show ("ESTADO" : String).data = ['E', 'S', 'T', 'A', 'D', 'O'] from rfl,
          show (" - " : String).data = [' ', '-', ' '] from rfl,
          show (": " : String).data = [':', ' '] from rfl,
          show (" -> " : String).data = [' ', '-', '>', ' '] from rfl,
          show (" (" : String).data = [' ', '('] from rfl,
          show (")" : String).data = [')'] from rfl]
      rw [hL, matchLinea_core F.data ['E', 'S', 'T', 'A', 'D', 'O'] .ESTADO o0 n0 O' N'
        (' ' :: '(' :: (s.data ++ [')'])) (some s.data)
        hFne hFs (by decide) (by rfl) (matchTipo_estado _) ho0 hOs hn0 hNs htailGu htailFl hg4]
      simp [mk_data, ← hOdata, ← hNdata]
    | CORRAL =>
      have hL : (encodeCambio
          { fecha := F, tipo := .CORRAL, valorAnterior := O, valorNuevo := N,
            observaciones := some s }).data =
          F.data ++ ' ' :: '-' :: ' ' :: (['C', 'O', 'R', 'R', 'A', 'L'] ++ ':' :: ' ' ::
            ((o0 :: O') ++ (' ' :: '-' :: '>' :: ' ' ::
              ((n0 :: N') ++ (' ' :: '(' :: (s.data ++ [')'])))))) := by
        simp [encodeCambio, data_append, TipoCambio.render, hOdata, hNdata, hsne,
          show ("CORRAL" : String).data = ['C', 'O', 'R', 'R', 'A', 'L'] from rfl,
          show (" - " : String).data = [' ', '-', ' '] from rfl,
          show (": " : String).data = [':', ' '] from rfl,
          show (" -> " : String).data = [' ', '-', '>', ' '] from rfl,
          show (" (" : String).data = [' ', '('] from rfl,
          show (")" : String).data = [')'] from rfl]
      rw [hL, matchLinea_core F.data ['C', 'O', 'R', 'R', 'A', 'L'] .CORRAL o0 n0 O' N'
        (' ' :: '(' :: (s.data ++ [')'])) (some s.data)
        hFne hFs (by decide) (by rfl) (matchTipo_corral _) ho0 hOs hn0 hNs htailGu htailFl hg4]
      simp [mk_data, ← hOdata, ← hNdata]

/-- A newline free list of characters is one single line. -/
theorem splitNl_noNl (xs : List Char) (h : ∀ c ∈ xs, ¬ c = '\n') : splitNl xs = [xs] := by
  induction xs with
  | nil => rfl
  | cons c cs ih =>
    have hc : (c == '\n') = false := beq_eq_false_iff_ne.mpr (h c (by simp))
    rw [splitNl, hc]
    simp only [Bool.false_eq_true, if_false]
    rw [ih (fun d hd => h d (by simp [hd]))]

/-- Splitting after a newline free first line peels it off. -/
theorem splitNl_append (xs ys : List Char) (h : ∀ c ∈ xs, ¬ c = '\n') :
    splitNl (xs ++ '\n' :: ys) = xs :: splitNl ys := by
  induction xs with
  | nil =>
    show splitNl ('\n' :: ys) = [] :: splitNl ys
    rw [splitNl]
    simp
  | cons c cs ih =>
    have hc : (c == '\n') = false := beq_eq_false_iff_ne.mpr (h c (by simp))
    show splitNl (c :: (cs ++ '\n' :: ys)) = (c :: cs) :: splitNl ys
    rw [splitNl, hc]
    simp only [Bool.false_eq_true, if_false]
    rw [ih (fun d hd => h d (by simp [hd]))]

/-- The encoded line of a safe record contains no newline. -/
theorem encode_noNl (cb : Cambio) (hgood : cambioSeguro cb) :
    ∀ c ∈ (encodeCambio cb).data, ¬ c = '\n' := by
  obtain ⟨F, tipo, O, N, obs⟩ := cb
  obtain ⟨hFc, hOc, hNc, hobs⟩ := hgood
  have hF : '\n' ∉ F.data := fun hm => by
    have := (hFc.2 _ hm).1
    simp [isJsWs] at this
  have hO : '\n' ∉ O.data := fun hm => by
    have := (hOc.2 _ hm).1
    simp [isJsWs] at this
  have hN : '\n' ∉ N.data := fun hm => by
    have := (hNc.2 _ hm).1
    simp [isJsWs] at this
  intro c hc he
  subst he
  cases obs with
  | none =>
    cases tipo <;>
      (simp [encodeCambio, TipoCambio.render, data_append] at hc
       rcases hc with h | h | h
       · exact hF h
       · exact hO h
       · exact hN h)
  | some s =>
    have hsne : s ≠ "" := hobs.1
    have hs : '\n' ∉ s.data := fun hm => by
      have := (hobs.2 _ hm).1
      simp [isJsWs] at this
    cases tipo <;>
      (simp [encodeCambio, TipoCambio.render, data_append, hsne] at hc
       rcases hc with h | h | h | h
       · exact hF h
       · exact hO h
       · exact hN h
       · exact hs h)

/-- The encoded line of a change record is never the empty string. -/
theorem encode_ne (cb : Cambio) : encodeCambio cb ≠ "" := by
  intro h
  have h2 := congrArg String.data h
  simp [encodeCambio, data_append] at h2

/-- A string holding a newline is nonempty. -/
theorem append_nl_ne (a b : String) : a ++ "\n" ++ b ≠ "" := by
  intro he
  have h2 : (a ++ "\n" ++ b).data = [] := by rw [he]
  simp [data_append, show ("\n" : String).data = ['\n'] from rfl] at h2

/-- lineasJoin of nonempty lines over a nonempty list is nonempty. -/
theorem lineasJoin_ne (ls : List String) (hne : ls ≠ []) (h : ∀ l ∈ ls, l ≠ "") :
    lineasJoin ls ≠ "" := by
  cases ls with
  | nil => exact absurd rfl hne
  | cons l rest =>
    cases rest with
    | nil => exact h l (by simp)
    | cons l2 r2 => exact append_nl_ne l (lineasJoin (l2 :: r2))

/-- Appending one more line to a nonempty join inserts one newline. -/
theorem lineasJoin_append_one (ls : List String) (l : String) (hne : ls ≠ []) :
    lineasJoin (ls ++ [l]) = lineasJoin ls ++ "\n" ++ l := by
  induction ls with
  | nil => exact absurd rfl hne
  | cons x xs ih =>
    cases xs with
    | nil => rfl
    | cons y ys =>
      show lineasJoin (x :: (y :: (ys ++ [l]))) = lineasJoin (x :: y :: ys) ++ "\n" ++ l
      have h1 : lineasJoin (x :: (y :: (ys ++ [l]))) =
          x ++ "\n" ++ lineasJoin (y :: (ys ++ [l])) := rfl
      have h2 : lineasJoin (x :: y :: ys) = x ++ "\n" ++ lineasJoin (y :: ys) := rfl
      rw [h1, h2]
      rw [show (y :: (ys ++ [l])) = ((y :: ys) ++ [l]) from rfl]
      rw [ih (by simp)]
      simp [String.append_assoc]

/-- The observaciones column accumulated by registrarCambio from a column
already holding a nonempty join extends that join. -/
theorem foldl_obs_general (cambios : List Cambio) :
    ∀ (cerdo : Cerdo) (pre : List String), pre ≠ [] → lineasJoin pre ≠ "" →
      cerdo.observaciones = lineasJoin pre →
      (cambios.foldl registrarCambio cerdo).observaciones =
        lineasJoin (pre ++ cambios.map encodeCambio) := by
  induction cambios with
  | nil =>
    intro cerdo pre _ _ hobs
    simpa using hobs
  | cons cb rest ih =>
    intro cerdo pre hne hjne hobs
    show ((rest.foldl registrarCambio (registrarCambio cerdo cb))).observaciones = _
    have hstep : (registrarCambio cerdo cb).observaciones =
        lineasJoin (pre ++ [encodeCambio cb]) := by
      show appendObservacion cerdo.observaciones (encodeCambio cb) = _
      rw [hobs, appendObservacion, if_neg hjne, lineasJoin_append_one pre _ hne]
    have hjne2 : lineasJoin (pre ++ [encodeCambio cb]) ≠ "" := by
      rw [lineasJoin_append_one pre _ hne]
      exact append_nl_ne _ _
    rw [ih (registrarCambio cerdo cb) (pre ++ [encodeCambio cb]) (by simp) hjne2 hstep]
    simp [List.append_assoc]

/-- The observaciones column accumulated by registrarCambio from an empty
column is the newline join of the encoded lines. -/
theorem foldl_obs (cambios : List Cambio) (cerdo : Cerdo) (h0 : cerdo.observaciones = "") :
    (cambios.foldl registrarCambio cerdo).observaciones =
      lineasJoin (cambios.map encodeCambio) := by
  cases cambios with
  | nil => simpa using h0
  | cons cb rest =>
    show (rest.foldl registrarCambio (registrarCambio cerdo cb)).observaciones = _
    have hce : encodeCambio cb ≠ "" := encode_ne cb
    have hstep : (registrarCambio cerdo cb).observaciones =
        lineasJoin [encodeCambio cb] := by
      show appendObservacion cerdo.observaciones (encodeCambio cb) = _
      rw [h0, appendObservacion, if_pos rfl]
      rfl
    rw [foldl_obs_general rest (registrarCambio cerdo cb) [encodeCambio cb] (by simp)
      (by simpa [lineasJoin] using hce) hstep]
    rfl

/-- The data list of a join with a nonempty tail starts with the first line
followed by a newline. -/
theorem lineasJoin_cons_data (l : String) (ls : List String) (hne : ls ≠ []) :
    (lineasJoin (l :: ls)).data = l.data ++ '\n' :: (lineasJoin ls).data := by
  cases ls with
  | nil => exact absurd rfl hne
  | cons y ys =>
    show (l ++ "\n" ++ lineasJoin (y :: ys)).data = _
    simp [data_append, show ("\n" : String).data = ['\n'] from rfl]

/-- The parsing core of obtenerHistorial inverts the newline join of the
encoded lines of safe change records. -/
theorem parse_lineasJoin (cambios : List Cambio) :
    (∀ cb ∈ cambios, cambioSeguro cb) → cambios ≠ [] →
    parseObservaciones (lineasJoin (cambios.map encodeCambio)) = cambios := by
  induction cambios with
  | nil => intro _ hne; exact absurd rfl hne
  | cons cb rest ih =>
    intro hgood _
    have hcb : cambioSeguro cb := hgood cb (by simp)
    cases rest with
    | nil =>
      show (splitNl (lineasJoin [encodeCambio cb]).data).filterMap matchLinea = [cb]
      rw [show lineasJoin [encodeCambio cb] = encodeCambio cb from rfl,
        splitNl_noNl _ (encode_noNl cb hcb)]
      simp [matchLinea_encode cb hcb]
    | cons cb2 rest2 =>
      have ihv := ih (fun x hx => hgood x (by simp [hx])) (by simp)
      show (splitNl (lineasJoin (encodeCambio cb ::
          (cb2 :: rest2).map encodeCambio)).data).filterMap matchLinea = cb :: cb2 :: rest2
      rw [lineasJoin_cons_data _ _ (by simp), splitNl_append _ _ (encode_noNl cb hcb)]
      simp only [List.filterMap_cons, matchLinea_encode cb hcb]
      exact congrArg (List.cons cb) ihv

/-- Successive registrarCambio calls never touch the pig id column. -/
theorem foldl_registrarCambio_id (cambios : List Cambio) :
    ∀ cerdo : Cerdo, (cambios.foldl registrarCambio cerdo).id = cerdo.id := by
  induction cambios with
  | nil => intro cerdo; rfl
  | cons cb rest ih =>
    intro cerdo
    show (rest.foldl registrarCambio (registrarCambio cerdo cb)).id = cerdo.id
    rw [ih (registrarCambio cerdo cb)]
    rfl

